import Mathlib

/-!
Verification development for the mediation-strapi-import-export repository.
The import pipeline (format parsers, publish-state normalization, the
per-record loop, and the recursive update-or-create engine with relation
resolution) is shallowly embedded below; machine values are modelled by the
inductive type Value, the entity store by an explicit Store state threaded
through every operation, and thrown exceptions by Except results paired with
the store reached at the throw point (JavaScript exceptions do not roll back
prior writes).
-/

/-- Replace the first binding of a key in an association list, or append
it, preserving insertion order as JavaScript objects do. -/
def setAssoc {beta : Type} : List (String × beta) → String → beta →
    List (String × beta)
  | [], k, v => [(k, v)]
  | (k0, v0) :: rest, k, v =>
    if k0 = k then (k, v) :: rest else (k0, v0) :: setAssoc rest k v

/-- A JavaScript-style value: null, booleans, numbers (integer model),
strings, arrays and plain objects (association lists of fields). Field
absence in an object models the JavaScript undefined. -/
inductive Value where
  | vNull : Value
  | vBool (b : Bool) : Value
  | vNum (n : Int) : Value
  | vStr (s : String) : Value
  | vArr (elems : List Value) : Value
  | vObj (fields : List (String × Value)) : Value
  deriving Repr

namespace Value

mutual

/-- Structural value equality, modelling strict comparison of decoded data. -/
def beqV : Value → Value → Bool
  | .vNull, .vNull => true
  | .vBool a, .vBool b => a == b
  | .vNum a, .vNum b => a == b
  | .vStr a, .vStr b => a == b
  | .vArr xs, .vArr ys => beqL xs ys
  | .vObj xs, .vObj ys => beqF xs ys
  | _, _ => false

/-- Elementwise equality of value lists. -/
def beqL : List Value → List Value → Bool
  | [], [] => true
  | x :: xs, y :: ys => beqV x y && beqL xs ys
  | _, _ => false

/-- Elementwise equality of field lists. -/
def beqF : List (String × Value) → List (String × Value) → Bool
  | [], [] => true
  | (k1, v1) :: xs, (k2, v2) :: ys => k1 == k2 && beqV v1 v2 && beqF xs ys
  | _, _ => false

end

/-- Field lookup on an object; none models undefined (absent field or
non-object receiver). -/
def objGet : Value → String → Option Value
  | .vObj fs, k => fs.lookup k
  | _, _ => none

/-- Field assignment on an object; on a non-object receiver the value is
returned unchanged. -/
def objSet : Value → String → Value → Value
  | .vObj fs, k, v => .vObj (setAssoc fs k v)
  | o, _, _ => o

/-- The delete operator on an object field; identity on non-objects. -/
def objDelete : Value → String → Value
  | .vObj fs, k => .vObj (fs.filter (fun p => p.1 != k))
  | o, _ => o

/-- Spread-merge of an extra field, as in a spread expression adding one key:
on a non-object base the result is a fresh one-field object, mirroring how a
spread of a primitive contributes no fields. -/
def spreadSetField : Value → String → Value → Value
  | .vObj fs, k, v => .vObj (setAssoc fs k v)
  | _, k, v => .vObj [(k, v)]

/-- Merge the fields of the second object over the first (store update
semantics); returns the base unchanged when either side is not an object. -/
def objMerge : Value → Value → Value
  | .vObj bs, .vObj ds => .vObj (ds.foldl (fun acc p => setAssoc acc p.1 p.2) bs)
  | b, _ => b

/-- JavaScript truthiness. -/
def truthy : Value → Bool
  | .vNull => false
  | .vBool b => b
  | .vNum n => n != 0
  | .vStr s => !s.isEmpty
  | .vArr _ => true
  | .vObj _ => true

/-- Truthiness of a possibly-undefined value. -/
def truthyOpt : Option Value → Bool
  | none => false
  | some v => truthy v

/-- Modelled from the spec: the isObjectSafe helper of the shared object
library (not under src), classifying a value as a structured object
(mapping), excluding null and arrays. -/
def isObjectSafe : Value → Bool
  | .vObj _ => true
  | _ => false

/-- Modelled from the spec: the isArraySafe helper of the shared array
library (not under src). -/
def isArraySafe : Value → Bool
  | .vArr _ => true
  | _ => false

/-- Modelled from the spec: the toArray helper of the shared array library
(not under src) — coercion of a value to a sequence, wrapping non-arrays in
a singleton. -/
def toArray : Value → List Value
  | .vArr xs => xs
  | v => [v]

end Value

open Value

/-- An attribute descriptor as exposed by the schema introspector: name,
type tag, and the relational metadata used by the relation resolver
(relation target, component target, repeatable/multiple cardinality). -/
structure Attribute where
  name : String
  type : String
  target : String := ""
  component : String := ""
  repeatable : Bool := false
  multiple : Bool := false
  deriving Repr, DecidableEq

/-- A model descriptor: slug, kind (collectionType or singleType), the
draftAndPublish option flag and the attribute list. -/
structure Model where
  slug : String
  kind : String
  draftAndPublish : Bool
  attributes : List Attribute
  deriving Repr, DecidableEq

/-- The acting user performing the import. -/
structure User where
  id : Int
  deriving Repr, DecidableEq

/-- The ambient schema environment: the known models, and the behaviour of
the external media-resolution collaborator as a value-to-id table. -/
structure Env where
  models : List Model
  media : List (Value × Int)
  deriving Repr

/-- Modelled from the spec: the schema introspector getModel (utils/models,
not under src) — look up a model descriptor by slug. -/
def getModel (env : Env) (slug : String) : Option Model :=
  env.models.find? (fun m => m.slug == slug)

/-- Modelled from the spec: the schema introspector getModelAttributes
(utils/models, not under src) — the model's attributes restricted to the
requested type tags; empty for an unknown slug. -/
def getModelAttributes (env : Env) (slug : String) (filterType : List String) :
    List Attribute :=
  match getModel env slug with
  | some m => m.attributes.filter (fun a => filterType.contains a.type)
  | none => []

/-- Modelled from the spec: the reserved pseudo-model identifier
(CustomSlugs.MEDIA of config/constants, not under src) that routes an import
to the media-only path. -/
def mediaSlug : String := "plugin::upload.file"

/-- The opaque entity store: one table of entities per slug, a fresh-identity
counter, the unique-constrained field names per slug (the store-level error
source), and a log of every data payload passed to a create or update. -/
structure Store where
  tables : List (String × List Value)
  nextId : Int
  uniques : List (String × List String)
  writes : List (String × Value)
  deriving Repr

/-- The entities currently in a slug's table. -/
def tableOf (st : Store) (slug : String) : List Value :=
  (st.tables.lookup slug).getD []

/-- The unique-constrained field names configured for a slug. -/
def uniquesOf (st : Store) (slug : String) : List String :=
  (st.uniques.lookup slug).getD []

/-- Replace a slug's table in the store. -/
def setTable (st : Store) (slug : String) (tbl : List Value) : Store :=
  { st with tables := setAssoc st.tables slug tbl }

/-- Whether an entity matches a where filter: every filter field equals the
entity's value at that field (absent fields never match). -/
def matchesWhere (e : Value) (w : List (String × Value)) : Bool :=
  w.all (fun p =>
    match objGet e p.1 with
    | some v => beqV v p.2
    | none => false)

/-- Store findOne: the first entity of the slug's table matching the filter. -/
def dbFindOne (st : Store) (slug : String) (w : List (String × Value)) :
    Option Value :=
  (tableOf st slug).find? (fun e => matchesWhere e w)

/-- Store findMany without a filter: the slug's whole table. -/
def dbFindMany (st : Store) (slug : String) : List Value :=
  tableOf st slug

/-- Whether writing this data would violate one of the slug's unique
constraints against the given table of other entities. -/
def uniqueViolation (st : Store) (slug : String) (others : List Value)
    (data : Value) : Bool :=
  (uniquesOf st slug).any (fun f =>
    match objGet data f with
    | some v => truthy v && others.any (fun e =>
        match objGet e f with
        | some w => beqV w v
        | none => false)
    | none => false)

/-- Store create: rejects non-object data (store validation) and unique
constraint violations; otherwise assigns the store's own fresh identity,
appends the entity and logs the written payload. -/
def dbCreate (st : Store) (slug : String) (data : Value) :
    Except String Value × Store :=
  if !isObjectSafe data then
    (.error "ValidationError: invalid data payload", st)
  else if uniqueViolation st slug (tableOf st slug) data then
    (.error "This attribute must be unique", st)
  else
    let entity := objSet data "id" (.vNum st.nextId)
    let st' := setTable st slug (tableOf st slug ++ [entity])
    (.ok entity,
      { st' with nextId := st.nextId + 1, writes := (slug, data) :: st.writes })

/-- Replace the first list element satisfying the predicate by its image
under the update function, returning the image and the new list. -/
def updateFirst (p : Value → Bool) (mk : Value → Value) : List Value →
    Option (Value × List Value)
  | [] => none
  | e :: rest =>
    if p e then some (mk e, mk e :: rest)
    else
      match updateFirst p mk rest with
      | some (m, rest') => some (m, e :: rest')
      | none => none

/-- Whether an entity's id field equals the given identity value. -/
def hasId (idv : Value) (e : Value) : Bool :=
  match objGet e "id" with
  | some v => beqV v idv
  | none => false

/-- Store update by identity: merges the payload over the first entity whose
id equals the given identity value (the identity itself is immutable),
logging the written payload; fails when no such entity exists or the payload
is not an object. -/
def dbUpdate (st : Store) (slug : String) (idv : Value) (data : Value) :
    Except String Value × Store :=
  if !isObjectSafe data then
    (.error "ValidationError: invalid data payload", st)
  else
    match updateFirst (hasId idv) (fun e => objSet (objMerge e data) "id" idv)
        (tableOf st slug) with
    | none => (.error "NotFoundError: entity to update not found", st)
    | some (merged, tbl') =>
      let st' := setTable st slug tbl'
      (.ok merged, { st' with writes := (slug, data) :: st.writes })

mutual

/-- Modelled from the spec: the JavaScript String() coercion (external
builtin) — strings pass through, null prints as null, arrays join their
elements with commas, objects print as the object tag. -/
def jsToString : Value → String
  | .vNull => "null"
  | .vBool true => "true"
  | .vBool false => "false"
  | .vNum n => toString n
  | .vStr s => s
  | .vArr xs => jsToStringList xs
  | .vObj _ => "[object Object]"

/-- Comma-joined string coercion of array elements. -/
def jsToStringList : List Value → String
  | [] => ""
  | [x] => jsToString x
  | x :: xs => jsToString x ++ "," ++ jsToStringList xs

end

mutual

/-- Modelled from the spec: the JavaScript JSON.stringify builtin
(integer-precision, minimal-escaping model). -/
def jsonStringify : Value → String
  | .vNull => "null"
  | .vBool true => "true"
  | .vBool false => "false"
  | .vNum n => toString n
  | .vStr s => "\"" ++ s ++ "\""
  | .vArr xs => "[" ++ jsonStringifyList xs ++ "]"
  | .vObj fs => "\x7b" ++ jsonStringifyFields fs ++ "\x7d"

/-- Comma-joined serialization of array elements. -/
def jsonStringifyList : List Value → String
  | [] => ""
  | [x] => jsonStringify x
  | x :: xs => jsonStringify x ++ "," ++ jsonStringifyList xs

/-- Comma-joined serialization of object fields. -/
def jsonStringifyFields : List (String × Value) → String
  | [] => ""
  | [(k, v)] => "\"" ++ k ++ "\":" ++ jsonStringify v
  | (k, v) :: fs => "\"" ++ k ++ "\":" ++ jsonStringify v ++ "," ++
      jsonStringifyFields fs

end

/-- Drop leading JSON whitespace. -/
def skipWs : List Char → List Char
  | c :: cs => if c = ' ' ∨ c = '\n' ∨ c = '\t' ∨ c = '\r' then skipWs cs else c :: cs
  | [] => []

/-- Read the digits of a natural number literal. -/
def readDigits : List Char → (List Char × List Char)
  | c :: cs =>
    if c.isDigit then
      let (ds, rest) := readDigits cs
      (c :: ds, rest)
    else ([], c :: cs)
  | [] => ([], [])

/-- Read the characters of a string literal up to the closing quote
(escape-free model). -/
def readStringLit : List Char → Option (String × List Char)
  | c :: cs =>
    if c = '"' then some ("", cs)
    else if c = '\\' then none
    else
      match readStringLit cs with
      | some (s, rest) => some (String.singleton c ++ s, rest)
      | none => none
  | [] => none

mutual

/-- Modelled from the spec: the JavaScript JSON.parse builtin — a fuel-bounded
recursive-descent reader for null, booleans, integers, escape-free strings,
arrays and objects; none models a thrown SyntaxError. -/
def parseJsonVal : Nat → List Char → Option (Value × List Char)
  | 0, _ => none
  | _ + 1, [] => none
  | fuel + 1, c :: cs =>
    if c = 'n' then
      match cs with
      | 'u' :: 'l' :: 'l' :: rest => some (.vNull, rest)
      | _ => none
    else if c = 't' then
      match cs with
      | 'r' :: 'u' :: 'e' :: rest => some (.vBool true, rest)
      | _ => none
    else if c = 'f' then
      match cs with
      | 'a' :: 'l' :: 's' :: 'e' :: rest => some (.vBool false, rest)
      | _ => none
    else if c = '-' then
      match readDigits cs with
      | ([], _) => none
      | (ds, rest) => some (.vNum (-(String.mk ds).toNat!), rest)
    else if c.isDigit then
      match readDigits (c :: cs) with
      | ([], _) => none
      | (ds, rest) => some (.vNum ((String.mk ds).toNat!), rest)
    else if c = '"' then
      match readStringLit cs with
      | some (s, rest) => some (.vStr s, rest)
      | none => none
    else if c = '[' then
      match skipWs cs with
      | ']' :: rest => some (.vArr [], rest)
      | cs' =>
        match parseJsonItems fuel cs' with
        | some (xs, rest) =>
          match skipWs rest with
          | ']' :: rest' => some (.vArr xs, rest')
          | _ => none
        | none => none
    else if c = '\x7b' then
      match skipWs cs with
      | '\x7d' :: rest => some (.vObj [], rest)
      | cs' =>
        match parseJsonMembers fuel cs' with
        | some (fs, rest) =>
          match skipWs rest with
          | '\x7d' :: rest' => some (.vObj fs, rest')
          | _ => none
        | none => none
    else none

/-- Comma-separated JSON array items. -/
def parseJsonItems : Nat → List Char → Option (List Value × List Char)
  | 0, _ => none
  | fuel + 1, cs =>
    match parseJsonVal fuel (skipWs cs) with
    | some (v, rest) =>
      match skipWs rest with
      | ',' :: rest' =>
        match parseJsonItems fuel rest' with
        | some (xs, rest'') => some (v :: xs, rest'')
        | none => none
      | rest' => some ([v], rest')
    | none => none

/-- Comma-separated JSON object members. -/
def parseJsonMembers : Nat → List Char → Option (List (String × Value) × List Char)
  | 0, _ => none
  | fuel + 1, cs =>
    match skipWs cs with
    | '"' :: cs' =>
      match readStringLit cs' with
      | some (k, rest) =>
        match skipWs rest with
        | ':' :: rest' =>
          match parseJsonVal fuel (skipWs rest') with
          | some (v, rest'') =>
            match skipWs rest'' with
            | ',' :: rest3 =>
              match parseJsonMembers fuel rest3 with
              | some (fs, rest4) => some ((k, v) :: fs, rest4)
              | none => none
            | rest3 => some ([(k, v)], rest3)
          | none => none
        | _ => none
      | none => none
    | _ => none

end

/-- Modelled from the spec: JSON.parse of a whole string — the decoded value
when the input is a complete JSON document, none for a SyntaxError. -/
def jsonParse (s : String) : Option Value :=
  match parseJsonVal (2 * s.length + 8) (skipWs s.toList) with
  | some (v, rest) => if skipWs rest = [] then some v else none
  | none => none

/-- Modelled from the spec: generic date parsing re-encoded to a canonical
timestamp string (the external Date builtin) — a string opening with a
four-digit year re-encodes its date part, anything else is an invalid date. -/
def jsDateParse (s : String) : Option String :=
  if s.length ≥ 10 ∧ (s.toList.take 4).all Char.isDigit then
    some ((s.take 10) ++ "T00:00:00.000Z")
  else
    none

/-- Modelled from the spec: the JavaScript Number() coercion (external
builtin, integer-precision model); none models NaN. -/
def jsToNumber : Value → Option Int
  | .vNum n => some n
  | .vBool true => some 1
  | .vBool false => some 0
  | .vNull => some 0
  | .vStr s => s.toInt?
  | _ => none

/-- Split a string on a delimiter character. -/
def splitOnCh (sep : Char) (s : String) : List String :=
  s.split (fun c => c = sep)

/-- Modelled from the spec: delimited-text decoding (the external csvtojson
library) — a header row then one record per non-empty line, cells split on
commas and paired with the header names, short rows leaving trailing fields
absent. -/
def csvDecode (s : String) : List Value :=
  match (splitOnCh '\n' s).filter (fun l => !l.isEmpty) with
  | [] => []
  | header :: rows =>
    let names := splitOnCh ',' header
    rows.map (fun row =>
      .vObj (names.zip ((splitOnCh ',' row).map Value.vStr)))

/-- The attribute type tags routed through the relation resolver. -/
def relationTypeTags : List String := ["component", "dynamiczone", "media", "relation"]

/-- Per-row coercion of one relation-classified cell in the delimited-text
parser: a truthy cell other than the null and undefined literals is
JSON-decoded (decode failure collapsing to null); every other cell is set
to null. -/
def coerceRelField (d : Value) (name : String) : Value :=
  match objGet d name with
  | some v =>
    if truthy v && !beqV v (.vStr "null") && !beqV v (.vStr "undefined") then
      match jsonParse (jsToString v) with
      | some parsed => objSet d name parsed
      | none => objSet d name .vNull
    else objSet d name .vNull
  | none => objSet d name .vNull

/-- Per-row coercion of one datetime-classified cell: a truthy non-null-
literal cell is date-parsed and re-encoded to a canonical timestamp when
valid (left untouched otherwise); a null-literal or empty cell becomes
null. -/
def coerceDateField (d : Value) (name : String) : Value :=
  match objGet d name with
  | some v =>
    if truthy v && !beqV v (.vStr "null") && !beqV v (.vStr "") then
      match jsDateParse (jsToString v) with
      | some iso => objSet d name (.vStr iso)
      | none => d
    else if beqV v (.vStr "null") || beqV v (.vStr "") then objSet d name .vNull
    else d
  | none => d

/-- Per-row coercion of one boolean-classified cell over the fixed
vocabulary; unrecognized cells are left untouched. -/
def coerceBoolField (d : Value) (name : String) : Value :=
  match objGet d name with
  | some v =>
    if beqV v (.vStr "true") || beqV v (.vStr "1") || beqV v (.vBool true) then
      objSet d name (.vBool true)
    else if beqV v (.vStr "false") || beqV v (.vStr "0") || beqV v (.vBool false) then
      objSet d name (.vBool false)
    else if beqV v (.vStr "null") || beqV v (.vStr "") then
      objSet d name .vNull
    else d
  | none => d

/-- Per-row coercion of one number-classified cell: numeric coercion with
failure collapsing to null; a null-literal or empty cell becomes null. -/
def coerceNumField (d : Value) (name : String) : Value :=
  match objGet d name with
  | some v =>
    if !beqV v (.vStr "") && !beqV v (.vStr "null") then
      match jsToNumber v with
      | some n => objSet d name (.vNum n)
      | none => objSet d name .vNull
    else objSet d name .vNull
  | none => d

/-- The whole per-row coercion of the delimited-text parser: relation,
datetime, boolean and number cells in that order, then the publish-state
handling (forced to null for a draft-mode import on a draft/publish model,
deleted when the model lacks draft/publish support). -/
def coerceRow (relationNames dateTimeFields booleanFields numberFields : List String)
    (hasDnP importAsDrafts : Bool) (datum : Value) : Value :=
  let datum := relationNames.foldl coerceRelField datum
  let datum := dateTimeFields.foldl coerceDateField datum
  let datum := booleanFields.foldl coerceBoolField datum
  let datum := numberFields.foldl coerceNumField datum
  if hasDnP && importAsDrafts then
    objSet datum "publishedAt" .vNull
  else if !hasDnP && (objGet datum "publishedAt").isSome then
    objDelete datum "publishedAt"
  else datum

/-- The delimited-text parser: decodes the tabular text, coerces every row
field-by-field against the model schema, and applies the publish-state
policy. -/
def parseCsv (env : Env) (dataRaw : Value) (slug : String)
    (importAsDraftsOpt : Option Bool) : Except String Value :=
  let importAsDrafts := importAsDraftsOpt.getD true
  match dataRaw with
  | .vStr s =>
    let data := csvDecode s
    let hasDnP := match getModel env slug with
      | some m => m.draftAndPublish
      | none => false
    let relationNames := (getModelAttributes env slug relationTypeTags).map (·.name)
    let dateTimeFields := (getModelAttributes env slug ["datetime", "date", "time"]).map (·.name)
    let booleanFields := (getModelAttributes env slug ["boolean"]).map (·.name)
    let numberFields :=
      (getModelAttributes env slug ["integer", "biginteger", "float", "decimal"]).map (·.name)
    .ok (.vArr (data.map
      (coerceRow relationNames dateTimeFields booleanFields numberFields
        hasDnP importAsDrafts)))
  | _ => .error "dataRaw.toString is not a function"

/-- Rest-destructuring of one record without its publishedAt field: throws
on null, keeps the remaining fields of an object, and yields an empty
object for a primitive. -/
def restWithoutPublishedAt : Value → Option Value
  | .vNull => none
  | .vObj fs => some (objDelete (.vObj fs) "publishedAt")
  | _ => some (.vObj [])

/-- Rest-destructuring mapped over a record list; none models the thrown
TypeError of destructuring null. -/
def restWithoutPublishedAtList : List Value → Option (List Value)
  | [] => some []
  | x :: xs =>
    match restWithoutPublishedAt x with
    | some x' =>
      match restWithoutPublishedAtList xs with
      | some xs' => some (x' :: xs')
      | none => none
    | none => none

/-- The structured-export parser: JSON-decodes the raw string and applies
only the publish-state policy (forcing null in draft mode, removing the
field for models without draft/publish support). -/
def parseJson (env : Env) (dataRaw : Value) (slug : String)
    (importAsDraftsOpt : Option Bool) : Except String Value :=
  let importAsDrafts := importAsDraftsOpt.getD true
  match jsonParse (jsToString dataRaw) with
  | none => .error "Unexpected token in JSON"
  | some data =>
    let hasDnP := match getModel env slug with
      | some m => m.draftAndPublish
      | none => false
    if hasDnP && importAsDrafts then
      match data with
      | .vArr xs => .ok (.vArr (xs.map (fun it => spreadSetField it "publishedAt" .vNull)))
      | .vObj _ => .ok (objSet data "publishedAt" .vNull)
      | .vNull => .error "Cannot set properties of null"
      | other => .ok other
    else if !hasDnP then
      match data with
      | .vArr xs =>
        match restWithoutPublishedAtList xs with
        | some xs' => .ok (.vArr xs')
        | none => .error "Cannot destructure null"
      | .vObj _ =>
        if (objGet data "publishedAt").isSome then .ok (objDelete data "publishedAt")
        else .ok data
      | .vNull => .error "Cannot read properties of null"
      | other => .ok other
    else .ok data

/-- The pre-decoded object parser: accepts an in-memory object or sequence
as-is and rejects anything else. -/
def parseJso (dataRaw : Value) : Except String Value :=
  if !isObjectSafe dataRaw && !isArraySafe dataRaw then
    .error "To import JSO, data must be an array or an object"
  else .ok dataRaw

/-- Field-name remapping of one foreign relational-dump row to the target
model: name kept, configuration re-serialized to text unless already a
string, version defaulted, publish-state derived from the source timestamp
under the draft policy; a null row throws (wrapped by the parser's outer
handler). -/
def pgTransform (hasDnP importAsDrafts : Bool) (item : Value) : Except String Value :=
  match item with
  | .vNull => .error "Failed to parse PostgreSQL JSON: Cannot read properties of null"
  | _ =>
    let nameF := match objGet item "name" with
      | some v => [("name", v)]
      | none => []
    let confF := match objGet item "configuration" with
      | some (.vStr s) => [("configuration", Value.vStr s)]
      | some v => [("configuration", Value.vStr (jsonStringify v))]
      | none => []
    let verF := [("version", match objGet item "version" with
      | some v => if truthy v then v else Value.vStr "main"
      | none => Value.vStr "main")]
    let pubF := if hasDnP then
        (if importAsDrafts then [("publishedAt", Value.vNull)]
         else match objGet item "published_at" with
           | some .vNull => [("publishedAt", Value.vNull)]
           | some v =>
             (match jsDateParse (jsToString v) with
              | some iso => [("publishedAt", Value.vStr iso)]
              | none => [])
           | none => [])
      else []
    .ok (.vObj (nameF ++ confF ++ verF ++ pubF))

/-- The row remapping folded over the whole dump; the first row error aborts
the parse. -/
def pgTransformList (hasDnP importAsDrafts : Bool) : List Value → Except String (List Value)
  | [] => .ok []
  | x :: xs =>
    match pgTransform hasDnP importAsDrafts x with
    | .ok t =>
      match pgTransformList hasDnP importAsDrafts xs with
      | .ok ts => .ok (t :: ts)
      | .error e => .error e
    | .error e => .error e

/-- The foreign relational-dump parser: JSON-decodes the dump, wraps a
non-array in a singleton, and remaps every row, aborting the whole parse on
the first failure. -/
def parsePostgresJson (env : Env) (dataRaw : Value) (slug : String)
    (importAsDraftsOpt : Option Bool) : Except String Value :=
  let importAsDrafts := importAsDraftsOpt.getD true
  let hasDnP := match getModel env slug with
    | some m => m.draftAndPublish
    | none => false
  match jsonParse (jsToString dataRaw) with
  | none => .error "Failed to parse PostgreSQL JSON: Unexpected token in JSON"
  | some data =>
    let items := if isArraySafe data then toArray data else [data]
    match pgTransformList hasDnP importAsDrafts items with
    | .ok ts => .ok (.vArr ts)
    | .error e => .error e

/-- Parser dispatch by format name: csv, jso, json and postgres are the
recognized formats; anything else fails naming the requested format. -/
def parseInputData (env : Env) (format : String) (dataRaw : Value) (slug : String)
    (importAsDraftsOpt : Option Bool) : Except String Value :=
  let importAsDrafts := importAsDraftsOpt.getD true
  if format == "csv" then parseCsv env dataRaw slug (some importAsDrafts)
  else if format == "jso" then parseJso dataRaw
  else if format == "json" then parseJson env dataRaw slug (some importAsDrafts)
  else if format == "postgres" then parsePostgresJson env dataRaw slug (some importAsDrafts)
  else .error ("Data input format " ++ format ++ " is not supported.")

/-- The collection-kind upsert: builds the lookup filter from the
identifying field only when the record supplies a truthy value for it,
strips the incoming id when the identifying field is not id, then creates
when no filter value is present, and otherwise updates the found entity by
its true store identity or creates when the lookup finds nothing. -/
def updateOrCreateCollectionType (slug : String) (data : Value) (idField : String)
    (st : Store) : Except String Value × Store :=
  let whereV : List (String × Value) :=
    if truthyOpt (objGet data idField) then
      [(idField, (objGet data idField).getD .vNull)]
    else []
  let data := if idField ≠ "id" then objDelete data "id" else data
  if !truthyOpt (whereV.lookup idField) then
    dbCreate st slug data
  else
    match dbFindOne st slug whereV with
    | some existing =>
      dbUpdate st slug ((objGet existing "id").getD .vNull) data
    | none => dbCreate st slug data

/-- The singular-kind upsert: discards the incoming id, then updates the
(at most one) existing entity or creates the first one. -/
def updateOrCreateSingleType (slug : String) (data : Value) (idField : String)
    (st : Store) : Except String Value × Store :=
  let data := objDelete data "id"
  match dbFindMany st slug with
  | [] => dbCreate st slug data
  | entry :: _ => dbUpdate st slug ((objGet entry "id").getD .vNull) data

/-- Modelled from the spec: the external media-resolution collaborator
findOrImportFile (utils/file, not under src) — find-existing-or-import of a
file descriptor, rendered as a lookup in the environment's media table, a
miss throwing. -/
def findOrImportFile (env : Env) (fileDatum : Value) (st : Store) :
    Except String Value × Store :=
  match env.media.find? (fun p => beqV p.1 fileDatum) with
  | some p => (.ok (.vObj [("id", .vNum p.2)]), st)
  | none => (.error "File not found", st)

/-- The media branch of the relation resolver: resolve each descriptor
through the media collaborator and collect the truthy resulting ids;
resolution errors propagate. -/
def mediaEntryIds (env : Env) : List Value → Store → Except String (List Value) × Store
  | [], st => (.ok [], st)
  | d :: rest, st =>
    match findOrImportFile env d st with
    | (.ok media, st1) =>
      let idv := (objGet media "id").getD .vNull
      match mediaEntryIds env rest st1 with
      | (.ok ids, st2) => (.ok (if truthy idv then idv :: ids else ids), st2)
      | (.error e, st2) => (.error e, st2)
    | (.error e, st1) => (.error e, st1)

/-- The scalar collapse of a resolved id list: the first id when truthy,
else null. -/
def headOrNull : List Value → Value
  | [] => .vNull
  | v :: _ => if truthy v then v else .vNull

mutual

/-- The upsert engine: resolves every relation-classified attribute of the
model through the relation resolver (threading the store), then dispatches
on the model kind to the singular or collection upsert; fuel bounds the
recursion depth of nested entity creation. -/
def updateOrCreate (fuel : Nat) (env : Env) (user : User) (slug : String)
    (data : Value) (idField : String) (st : Store) : Except String Value × Store :=
  match fuel with
  | 0 => (.error "Maximum call stack size exceeded", st)
  | g + 1 =>
    let relationAttributes := getModelAttributes env slug relationTypeTags
    match resolveAttributes g env user relationAttributes data st with
    | (.error e, st1) => (.error e, st1)
    | (.ok data1, st1) =>
      match getModel env slug with
      | none => (.error "Cannot read properties of undefined (reading kind)", st1)
      | some m =>
        if m.kind == "singleType" then
          updateOrCreateSingleType slug data1 idField st1
        else
          updateOrCreateCollectionType slug data1 idField st1
termination_by (fuel, 3, 0)

/-- The attribute-resolution loop of the upsert engine: replaces each
relation-classified field of the record with the resolver's output in
schema order. -/
def resolveAttributes (fuel : Nat) (env : Env) (user : User) :
    List Attribute → Value → Store → Except String Value × Store
  | [], data, st => (.ok data, st)
  | a :: rest, data, st =>
    match updateOrCreateRelation fuel env user a (objGet data a.name) st with
    | (.ok v, st1) => resolveAttributes fuel env user rest (objSet data a.name v) st1
    | (.error e, st1) => (.error e, st1)
termination_by attrs _ _ => (fuel, 2, attrs.length)

/-- The relation resolver: null and absent input resolve to null; the two
audit-actor fields resolve to the acting user's identifier; dynamic-union,
component, media and relation attributes resolve their entries as the code
does; any other type fails naming the offending type. -/
def updateOrCreateRelation (fuel : Nat) (env : Env) (user : User) (rel : Attribute)
    (relDataOpt : Option Value) (st : Store) : Except String Value × Store :=
  match fuel with
  | 0 => (.error "Maximum call stack size exceeded", st)
  | g + 1 =>
    match relDataOpt with
    | none => (.ok .vNull, st)
    | some relData =>
      match relData with
      | .vNull => (.ok .vNull, st)
      | _ =>
        if rel.name == "createdBy" || rel.name == "updatedBy" then
          (.ok (.vNum user.id), st)
        else if rel.type == "dynamiczone" then
          match relData with
          | .vArr cds =>
            match dynamicZoneEntries g env user cds st with
            | (.ok comps, st1) => (.ok (.vArr comps), st1)
            | (.error e, st1) => (.error e, st1)
          | _ => (.error "relData is not iterable", st)
        else if rel.type == "component" then
          let rd := toArray relData
          let rd := if rel.repeatable then rd else rd.take 1
          match relationEntryIds g env user rel.component rd st with
          | (.ok entryIds, st1) =>
            (.ok (if rel.repeatable then .vArr entryIds else headOrNull entryIds), st1)
          | (.error e, st1) => (.error e, st1)
        else if rel.type == "media" then
          let rd := toArray relData
          let rd := if rel.multiple then rd else rd.take 1
          match mediaEntryIds env rd st with
          | (.ok entryIds, st1) =>
            (.ok (if rel.multiple then .vArr entryIds else headOrNull entryIds), st1)
          | (.error e, st1) => (.error e, st1)
        else if rel.type == "relation" then
          let isMultiple := isArraySafe relData
          let rd := toArray relData
          match relationEntryIds g env user rel.target rd st with
          | (.ok entryIds, st1) =>
            (.ok (if isMultiple then .vArr entryIds else headOrNull entryIds), st1)
          | (.error e, st1) => (.error e, st1)
        else
          (.error ("Could not update or create relation of type " ++ rel.type ++ "."), st)
termination_by (fuel, 1, 0)

/-- The dynamic-union loop: each tagged sub-record is upserted against its
own tag as target model, then re-tagged with its discriminator; order is
preserved and errors propagate. -/
def dynamicZoneEntries (fuel : Nat) (env : Env) (user : User) :
    List Value → Store → Except String (List Value) × Store
  | [], st => (.ok [], st)
  | cd :: rest, st =>
    let target := match objGet cd "__component" with
      | some (.vStr s) => s
      | _ => ""
    match updateOrCreate fuel env user target cd "id" st with
    | (.ok entry, st1) =>
      let comp := spreadSetField entry "__component" ((objGet cd "__component").getD .vNull)
      match dynamicZoneEntries fuel env user rest st1 with
      | (.ok comps, st2) => (.ok (comp :: comps), st2)
      | (.error e, st2) => (.error e, st2)
    | (.error e, st1) => (.error e, st1)
termination_by cds _ => (fuel, 4, cds.length)

/-- The entry loop shared by the component and relation branches: a number
entry is kept as-is, an object entry is recursively upserted against the
target model and its truthy resulting id collected, and any other entry is
skipped; errors propagate. -/
def relationEntryIds (fuel : Nat) (env : Env) (user : User) (target : String) :
    List Value → Store → Except String (List Value) × Store
  | [], st => (.ok [], st)
  | d :: rest, st =>
    match d with
    | .vNum n =>
      match relationEntryIds fuel env user target rest st with
      | (.ok ids, st1) => (.ok (.vNum n :: ids), st1)
      | (.error e, st1) => (.error e, st1)
    | .vObj fs =>
      match updateOrCreate fuel env user target (.vObj fs) "id" st with
      | (.ok entry, st1) =>
        let idv := (objGet entry "id").getD .vNull
        match relationEntryIds fuel env user target rest st1 with
        | (.ok ids, st2) => (.ok (if truthy idv then idv :: ids else ids), st2)
        | (.error e, st2) => (.error e, st2)
      | (.error e, st1) => (.error e, st1)
    | _ => relationEntryIds fuel env user target rest st
termination_by ds _ => (fuel, 4, ds.length)

end

/-- One per-record result of an import loop: the success flag, and for a
failure the caught error message and the record as its argument list. -/
structure ProcessedRes where
  success : Bool
  error : String := ""
  args : List Value := []
  deriving Repr

/-- One failure entry of the import result: the error message and the data
for which the import failed. -/
structure ImportFailure where
  error : String
  data : Value
  deriving Repr

/-- The import result: the accumulated failure entries (successes are
implicit). -/
structure ImportRes where
  failures : List ImportFailure
  deriving Repr

/-- The defensive publish-state re-application at the head of the per-record
loop: when the model lacks draft/publish support and the record carries a
publishedAt field, the field is deleted; otherwise the record is untouched. -/
def preprocessRecord (hasDnP : Bool) (datum : Value) : Value :=
  if !hasDnP && (objGet datum "publishedAt").isSome then
    objDelete datum "publishedAt"
  else datum

/-- The per-record loop of the standard import path: every record is
preprocessed and upserted inside a per-record try, a failure being recorded
with its message and record and the loop continuing with the store state
reached at the throw point. -/
def importOtherSlugLoop (fuel : Nat) (env : Env) (user : User)
    (slug idField : String) (hasDnP : Bool) :
    List Value → Store → List ProcessedRes × Store
  | [], st => ([], st)
  | datum :: rest, st =>
    let datum := preprocessRecord hasDnP datum
    match updateOrCreate fuel env user slug datum idField st with
    | (.ok _, st1) =>
      let (ps, st2) := importOtherSlugLoop fuel env user slug idField hasDnP rest st1
      ({ success := true } :: ps, st2)
    | (.error e, st1) =>
      let (ps, st2) := importOtherSlugLoop fuel env user slug idField hasDnP rest st1
      ({ success := false, error := e, args := [datum] } :: ps, st2)

/-- The standard import path: runs the per-record loop over the whole record
sequence and keeps the failed results as failure entries. -/
def importOtherSlug (fuel : Nat) (env : Env) (user : User) (slug idField : String)
    (hasDnP importAsDrafts : Bool) (data : List Value) (st : Store) :
    ImportRes × Store :=
  let (processed, st1) := importOtherSlugLoop fuel env user slug idField hasDnP data st
  ({ failures := (processed.filter (fun p => !p.success)).map
      (fun f => { error := f.error, data := f.args.headD .vNull }) }, st1)

/-- The per-file loop of the media-only import path, isolating each file
resolution failure. -/
def importMediaLoop (env : Env) (user : User) :
    List Value → Store → List ProcessedRes × Store
  | [], st => ([], st)
  | fileDatum :: rest, st =>
    match findOrImportFile env fileDatum st with
    | (.ok _, st1) =>
      let (ps, st2) := importMediaLoop env user rest st1
      ({ success := true } :: ps, st2)
    | (.error e, st1) =>
      let (ps, st2) := importMediaLoop env user rest st1
      ({ success := false, error := e, args := [fileDatum] } :: ps, st2)

/-- The media-only import path: every record is treated as a file descriptor
for the media collaborator, with per-file failure isolation. -/
def importMedia (env : Env) (user : User) (fileData : List Value) (st : Store) :
    ImportRes × Store :=
  let (processed, st1) := importMediaLoop env user fileData st
  ({ failures := (processed.filter (fun p => !p.success)).map
      (fun f => { error := f.error, data := f.args.headD .vNull }) }, st1)

/-- The import orchestrator: resolves the model's draft/publish capability,
parses the raw input by format (the pre-decoded jso format bypassing the
parsers, and draft mode being applied only when the model supports
draft/publish), normalizes to a sequence, and routes to the media-only path
for the reserved slug or to the standard per-record loop otherwise; parse
errors abort the whole call before any record is processed. -/
def importData (fuel : Nat) (env : Env) (dataRaw : Value) (slug format : String)
    (user : User) (idField : String) (importAsDraftsOpt : Option Bool)
    (st : Store) : Except String ImportRes × Store :=
  let importAsDrafts := importAsDraftsOpt.getD true
  let hasDraftAndPublish := match getModel env slug with
    | some m => m.draftAndPublish
    | none => false
  let dataE : Except String Value :=
    if format == "jso" then .ok dataRaw
    else
      let shouldApplyDraftMode := if hasDraftAndPublish then importAsDrafts else false
      parseInputData env format dataRaw slug (some shouldApplyDraftMode)
  match dataE with
  | .error e => (.error e, st)
  | .ok data0 =>
    let data := toArray data0
    if slug == mediaSlug then
      let (res, st1) := importMedia env user data st
      (.ok res, st1)
    else
      let (res, st1) := importOtherSlug fuel env user slug idField
        hasDraftAndPublish importAsDrafts data st
      (.ok res, st1)

/-- An empty store whose identity counter starts at 1. -/
def stEmpty : Store := { tables := [], nextId := 1, uniques := [], writes := [] }

/-- The acting user of the concrete examples. -/
def userA : User := { id := 7 }

/-- A collection model without draft/publish support and without relational
attributes. -/
def tagModel : Model :=
  { slug := "api::tag.tag", kind := "collectionType", draftAndPublish := false,
    attributes := [{ name := "name", type := "string" }] }

/-- A collection model with draft/publish support and without relational
attributes. -/
def articleModel : Model :=
  { slug := "api::article.article", kind := "collectionType",
    draftAndPublish := true,
    attributes := [{ name := "name", type := "string" }] }

/-- A collection model without draft/publish support owning one relation
attribute targeting the tag model. -/
def postModel : Model :=
  { slug := "api::post.post", kind := "collectionType", draftAndPublish := false,
    attributes := [{ name := "name", type := "string" },
                   { name := "tag", type := "relation", target := "api::tag.tag" }] }

/-- A collection model with draft/publish support owning one relation
attribute targeting the article model. -/
def reviewModel : Model :=
  { slug := "api::review.review", kind := "collectionType",
    draftAndPublish := true,
    attributes := [{ name := "name", type := "string" },
                   { name := "article", type := "relation",
                     target := "api::article.article" }] }

/-- The example schema environment. -/
def envA : Env :=
  { models := [tagModel, articleModel, postModel, reviewModel], media := [] }

/-- A store whose tag table holds one entity and enforces a unique name. -/
def stUniq : Store :=
  { tables := [("api::tag.tag", [.vObj [("name", .vStr "a"), ("id", .vNum 1)]])],
    nextId := 2, uniques := [("api::tag.tag", ["name"])], writes := [] }

/-- A store whose tag table holds one entity, with no unique constraints. -/
def stOne : Store :=
  { tables := [("api::tag.tag", [.vObj [("name", .vStr "a"), ("id", .vNum 5)]])],
    nextId := 6, uniques := [], writes := [] }

/-- A relation attribute named tag targeting the tag model. -/
def relTag : Attribute :=
  { name := "tag", type := "relation", target := "api::tag.tag" }

/-- An audit-actor attribute of relation type. -/
def relCreatedBy : Attribute :=
  { name := "createdBy", type := "relation", target := "admin::user" }

theorem lookup_setAssoc_self {beta : Type} (l : List (String × beta))
    (k : String) (v : beta) : (setAssoc l k v).lookup k = some v := by
  induction l with
  | nil => simp [setAssoc, List.lookup_cons]
  | cons p rest ih =>
    obtain ⟨k0, v0⟩ := p
    by_cases h : k0 = k
    · simp [setAssoc, h, List.lookup_cons]
    · have hb : (k == k0) = false := beq_eq_false_iff_ne.mpr (fun he => h he.symm)
      simp [setAssoc, h, List.lookup_cons, hb, ih]

theorem lookup_setAssoc_ne {beta : Type} (l : List (String × beta))
    (k k' : String) (v : beta) (h : k' ≠ k) :
    (setAssoc l k v).lookup k' = l.lookup k' := by
  have hb : (k' == k) = false := beq_eq_false_iff_ne.mpr h
  induction l with
  | nil => simp [setAssoc, List.lookup_cons, hb]
  | cons p rest ih =>
    obtain ⟨k0, v0⟩ := p
    by_cases hk : k0 = k
    · subst hk
      simp [setAssoc, List.lookup_cons, hb]
    · by_cases hk' : k' = k0
      · simp [setAssoc, hk, List.lookup_cons, hk']
      · have hb' : (k' == k0) = false := beq_eq_false_iff_ne.mpr hk'
        simp [setAssoc, hk, List.lookup_cons, hb', ih]

theorem objGet_objSet_self (d : Value) (k : String) (v : Value)
    (h : isObjectSafe d = true) : objGet (objSet d k v) k = some v := by
  cases d <;> simp_all [isObjectSafe, objSet, objGet, lookup_setAssoc_self]

theorem objGet_objSet_ne (d : Value) (k k' : String) (v : Value) (h : k' ≠ k) :
    objGet (objSet d k v) k' = objGet d k' := by
  cases d <;> simp [objSet, objGet, lookup_setAssoc_ne _ _ _ _ h]

theorem lookup_filter_ne_key (fs : List (String × Value)) (k : String) :
    (fs.filter (fun p => p.1 != k)).lookup k = none := by
  induction fs with
  | nil => simp
  | cons p rest ih =>
    obtain ⟨k0, v0⟩ := p
    by_cases h : k0 = k
    · simp [List.filter_cons, h, ih]
    · have hb : (k0 != k) = true := by simp [bne_iff_ne]; exact h
      have hb' : (k == k0) = false := beq_eq_false_iff_ne.mpr (fun he => h he.symm)
      simp [List.filter_cons, hb, List.lookup_cons, hb', ih]

theorem objGet_objDelete_self (d : Value) (k : String) :
    objGet (objDelete d k) k = none := by
  cases d <;> simp [objDelete, objGet, lookup_filter_ne_key]

theorem lookup_filter_ne_other (fs : List (String × Value)) (k k' : String)
    (h : k' ≠ k) : (fs.filter (fun p => p.1 != k)).lookup k' = fs.lookup k' := by
  induction fs with
  | nil => simp
  | cons p rest ih =>
    obtain ⟨k0, v0⟩ := p
    by_cases hk : k0 = k
    · have hb : (k0 != k) = false := by simp [bne_iff_ne]; exact hk
      have hb' : (k' == k0) = false := beq_eq_false_iff_ne.mpr (by rw [hk]; exact h)
      simp [List.filter_cons, hb, List.lookup_cons, hb', ih]
    · have hb : (k0 != k) = true := by simp [bne_iff_ne]; exact hk
      by_cases hk' : k' = k0
      · simp [List.filter_cons, hb, List.lookup_cons, hk']
      · have hb' : (k' == k0) = false := beq_eq_false_iff_ne.mpr hk'
        simp [List.filter_cons, hb, List.lookup_cons, hb', ih]

theorem objGet_objDelete_ne (d : Value) (k k' : String) (h : k' ≠ k) :
    objGet (objDelete d k) k' = objGet d k' := by
  cases d <;> simp [objDelete, objGet, lookup_filter_ne_other _ _ _ h]

theorem isObjectSafe_objSet (d : Value) (k : String) (v : Value) :
    isObjectSafe (objSet d k v) = isObjectSafe d := by
  cases d <;> simp [objSet, isObjectSafe]

theorem isObjectSafe_objDelete (d : Value) (k : String) :
    isObjectSafe (objDelete d k) = isObjectSafe d := by
  cases d <;> simp [objDelete, isObjectSafe]

theorem isObjectSafe_objMerge (b d : Value) (h : isObjectSafe b = true) :
    isObjectSafe (objMerge b d) = true := by
  cases b <;> cases d <;> simp_all [objMerge, isObjectSafe]

theorem isObjectSafe_of_objGet_some (e : Value) (k : String) (v : Value)
    (h : objGet e k = some v) : isObjectSafe e = true := by
  cases e <;> simp_all [objGet, isObjectSafe]

theorem tableOf_setTable_self (st : Store) (slug : String) (tbl : List Value) :
    tableOf (setTable st slug tbl) slug = tbl := by
  simp [tableOf, setTable, lookup_setAssoc_self]

theorem tableOf_setTable_ne (st : Store) (slug slug' : String) (tbl : List Value)
    (h : slug' ≠ slug) : tableOf (setTable st slug tbl) slug' = tableOf st slug' := by
  simp [tableOf, setTable, lookup_setAssoc_ne _ _ _ _ h]

theorem uocRel_none (g : Nat) (env : Env) (user : User) (rel : Attribute) (st : Store) :
    updateOrCreateRelation (g+1) env user rel none st = (.ok .vNull, st) := by
  simp [updateOrCreateRelation]

theorem uocRel_null (g : Nat) (env : Env) (user : User) (rel : Attribute) (st : Store) :
    updateOrCreateRelation (g+1) env user rel (some .vNull) st = (.ok .vNull, st) := by
  simp [updateOrCreateRelation]

theorem uocRel_audit (g : Nat) (env : Env) (user : User) (rel : Attribute) (st : Store)
    (h : (rel.name == "createdBy" || rel.name == "updatedBy") = true)
    (v : Value) (hv : v ≠ .vNull) :
    updateOrCreateRelation (g+1) env user rel (some v) st = (.ok (.vNum user.id), st) := by
  cases v <;> simp_all [updateOrCreateRelation]

/-- C8: for every format name outside the four recognized formats (csv, jso,
json, postgres), parseInputData fails with an error naming the requested
format, and importData with that format fails the same way with the store
untouched — no store operation happens. -/
theorem spec_C8 (env : Env) (format : String) (dataRaw : Value) (slug : String)
    (opt : Option Bool) (fuel : Nat) (user : User) (idField : String) (st : Store)
    (h : format ∉ ["csv", "jso", "json", "postgres"]) :
    parseInputData env format dataRaw slug opt =
      .error ("Data input format " ++ format ++ " is not supported.") ∧
    importData fuel env dataRaw slug format user idField opt st =
      (.error ("Data input format " ++ format ++ " is not supported."), st) := by
  have h1 : (format == "csv") = false :=
    beq_eq_false_iff_ne.mpr (fun he => h (by simp [he]))
  have h2 : (format == "jso") = false :=
    beq_eq_false_iff_ne.mpr (fun he => h (by simp [he]))
  have h3 : (format == "json") = false :=
    beq_eq_false_iff_ne.mpr (fun he => h (by simp [he]))
  have h4 : (format == "postgres") = false :=
    beq_eq_false_iff_ne.mpr (fun he => h (by simp [he]))
  refine ⟨?_, ?_⟩
  · simp [parseInputData, h1, h2, h3, h4]
  · simp [importData, parseInputData, h1, h2, h3, h4]

/-- Witness for C8 at the concrete unrecognized format xml. -/
theorem spec_C8_witness :
    parseInputData envA "xml" (.vStr "x") "api::tag.tag" none =
      .error "Data input format xml is not supported." ∧
    importData 1 envA (.vStr "x") "api::tag.tag" "xml" userA "id" none stEmpty =
      (.error "Data input format xml is not supported.", stEmpty) :=
  spec_C8 envA "xml" (.vStr "x") "api::tag.tag" none 1 userA "id" stEmpty (by decide)

/-- C6 counterexample: for the created-by audit field with the supplied
input value null, the resolver returns null and not the acting user's
identifier, refuting the claim's "regardless of the input value". -/
theorem spec_C6_cex :
    updateOrCreateRelation 1 envA userA relCreatedBy (some .vNull) stEmpty =
      (.ok .vNull, stEmpty) ∧ Value.vNull ≠ Value.vNum userA.id :=
  ⟨uocRel_null 0 envA userA relCreatedBy stEmpty, fun h => nomatch h⟩

/-- C6 amended: for an audit-actor attribute (created-by or updated-by) the
resolver returns the acting user's identifier for every non-null supplied
value; null or absent input yields null, as the null check precedes the
audit-field check. -/
theorem spec_C6 (g : Nat) (env : Env) (user : User) (rel : Attribute) (st : Store)
    (h : rel.name = "createdBy" ∨ rel.name = "updatedBy") :
    updateOrCreateRelation (g+1) env user rel none st = (.ok .vNull, st) ∧
    updateOrCreateRelation (g+1) env user rel (some .vNull) st = (.ok .vNull, st) ∧
    ∀ v : Value, v ≠ .vNull →
      updateOrCreateRelation (g+1) env user rel (some v) st =
        (.ok (.vNum user.id), st) := by
  refine ⟨uocRel_none g env user rel st, uocRel_null g env user rel st, ?_⟩
  intro v hv
  exact uocRel_audit g env user rel st
    (by rcases h with h | h <;> simp [h]) v hv

/-- Witness for the amended C6 at the concrete created-by attribute. -/
theorem spec_C6_witness :
    (relCreatedBy.name = "createdBy" ∨ relCreatedBy.name = "updatedBy") ∧
    updateOrCreateRelation 1 envA userA relCreatedBy (some (.vStr "evil")) stEmpty =
      (.ok (.vNum 7), stEmpty) :=
  ⟨Or.inl rfl,
    (spec_C6 0 envA userA relCreatedBy stEmpty (Or.inl rfl)).2.2
      (.vStr "evil") (fun h => nomatch h)⟩

theorem updateFirst_some_of_mem (p : Value → Bool) (mk : Value → Value)
    (l : List Value) (e : Value) (he : e ∈ l) (hp : p e = true) :
    ∃ e0 l', p e0 = true ∧ e0 ∈ l ∧
      updateFirst p mk l = some (mk e0, l') ∧ l'.length = l.length := by
  induction l with
  | nil => cases he
  | cons x rest ih =>
    by_cases hx : p x = true
    · exact ⟨x, mk x :: rest, hx, List.mem_cons_self x rest,
        by simp [updateFirst, hx], by simp⟩
    · have he' : e ∈ rest := by
        rcases List.mem_cons.mp he with h | h
        · exact absurd (h ▸ hp) hx
        · exact h
      obtain ⟨e0, l', h1, h2, h3, h4⟩ := ih he'
      exact ⟨e0, x :: l', h1, List.mem_cons_of_mem x h2,
        by simp [updateFirst, hx, h3], by simp [h4]⟩

theorem isObjectSafe_of_hasId (idv e : Value) (h : hasId idv e = true) :
    isObjectSafe e = true := by
  unfold hasId at h
  cases hg : objGet e "id" with
  | none => rw [hg] at h; cases h
  | some v => exact isObjectSafe_of_objGet_some e "id" v hg

theorem dbCreate_ok (st : Store) (slug : String) (data : Value)
    (hdata : isObjectSafe data = true) (huniq : uniquesOf st slug = []) :
    dbCreate st slug data =
      (.ok (objSet data "id" (.vNum st.nextId)),
       { setTable st slug (tableOf st slug ++ [objSet data "id" (.vNum st.nextId)]) with
         nextId := st.nextId + 1, writes := (slug, data) :: st.writes }) := by
  simp [dbCreate, hdata, uniqueViolation, huniq]

theorem dbUpdate_ok (st : Store) (slug : String) (idv : Value) (data : Value)
    (hdata : isObjectSafe data = true)
    (e : Value) (he : e ∈ tableOf st slug) (hid : hasId idv e = true) :
    ∃ m st', dbUpdate st slug idv data = (.ok m, st') ∧
      objGet m "id" = some idv ∧
      (tableOf st' slug).length = (tableOf st slug).length ∧
      st'.writes = (slug, data) :: st.writes := by
  obtain ⟨e0, l', h1, h2, h3, h4⟩ :=
    updateFirst_some_of_mem (hasId idv)
      (fun e => objSet (objMerge e data) "id" idv) (tableOf st slug) e he hid
  refine ⟨objSet (objMerge e0 data) "id" idv,
    { setTable st slug l' with writes := (slug, data) :: st.writes }, ?_, ?_, ?_, rfl⟩
  · simp [dbUpdate, hdata, h3]
  · exact objGet_objSet_self _ _ _
      (isObjectSafe_objMerge e0 data (isObjectSafe_of_hasId idv e0 h1))
  · have : tableOf { setTable st slug l' with
        writes := (slug, data) :: st.writes } slug = l' := by
      simp [tableOf, setTable, lookup_setAssoc_self]
    rw [this, h4]

/-- C1: for a collection-kind model, when the record supplies a truthy
identifying-field value matching an existing entity, the upsert updates that
entity by its true store identity and creates no duplicate (the table length
is unchanged); when the record supplies no truthy identifying value, or the
lookup finds nothing, exactly one new entity is created. -/
theorem spec_C1 (slug : String) (data : Value) (idField : String) (st : Store)
    (huniq : uniquesOf st slug = []) :
    (∀ v e i, objGet data idField = some v → truthy v = true →
       dbFindOne st slug [(idField, v)] = some e →
       objGet e "id" = some (.vNum i) →
       ∃ m st', updateOrCreateCollectionType slug data idField st = (.ok m, st') ∧
         objGet m "id" = some (.vNum i) ∧
         (tableOf st' slug).length = (tableOf st slug).length) ∧
    (truthyOpt (objGet data idField) = false → isObjectSafe data = true →
       ∃ m st', updateOrCreateCollectionType slug data idField st = (.ok m, st') ∧
         (tableOf st' slug).length = (tableOf st slug).length + 1) ∧
    (∀ v, objGet data idField = some v → truthy v = true →
       dbFindOne st slug [(idField, v)] = none →
       ∃ m st', updateOrCreateCollectionType slug data idField st = (.ok m, st') ∧
         (tableOf st' slug).length = (tableOf st slug).length + 1) := by
  refine ⟨?_, ?_, ?_⟩
  · intro v e i hv htr hfind hid
    have hobj : isObjectSafe data = true := isObjectSafe_of_objGet_some _ _ _ hv
    have hobj' : isObjectSafe (if idField ≠ "id" then objDelete data "id" else data) = true := by
      split <;> simp [isObjectSafe_objDelete, hobj]
    have hmem : e ∈ tableOf st slug := List.mem_of_find?_eq_some hfind
    have hhasId : hasId (.vNum i) e = true := by simp [hasId, hid, beqV]
    obtain ⟨m, st', h1, h2, h3, h4⟩ :=
      dbUpdate_ok st slug (.vNum i)
        (if idField ≠ "id" then objDelete data "id" else data) hobj' e hmem hhasId
    refine ⟨m, st', ?_, h2, h3⟩
    have hstep : updateOrCreateCollectionType slug data idField st =
        dbUpdate st slug (.vNum i)
          (if idField ≠ "id" then objDelete data "id" else data) := by
      simp only [updateOrCreateCollectionType, hv]
      simp [truthyOpt, htr, List.lookup_cons, hfind, hid]
    rw [hstep, h1]
  · intro hfalsy hobj
    have hobj' : isObjectSafe (if idField ≠ "id" then objDelete data "id" else data) = true := by
      split <;> simp [isObjectSafe_objDelete, hobj]
    have hstep : updateOrCreateCollectionType slug data idField st =
        dbCreate st slug (if idField ≠ "id" then objDelete data "id" else data) := by
      simp only [updateOrCreateCollectionType, hfalsy]
      simp [truthyOpt, List.lookup]
    rw [hstep, dbCreate_ok st slug _ hobj' huniq]
    refine ⟨_, _, rfl, ?_⟩
    simp [tableOf, setTable, lookup_setAssoc_self]
  · intro v hv htr hfind
    have hobj : isObjectSafe data = true := isObjectSafe_of_objGet_some _ _ _ hv
    have hobj' : isObjectSafe (if idField ≠ "id" then objDelete data "id" else data) = true := by
      split <;> simp [isObjectSafe_objDelete, hobj]
    have hstep : updateOrCreateCollectionType slug data idField st =
        dbCreate st slug (if idField ≠ "id" then objDelete data "id" else data) := by
      simp only [updateOrCreateCollectionType, hv]
      simp [truthyOpt, htr, List.lookup_cons, hfind]
    rw [hstep, dbCreate_ok st slug _ hobj' huniq]
    refine ⟨_, _, rfl, ?_⟩
    simp [tableOf, setTable, lookup_setAssoc_self]

/-- Witness for C1: a record matching the existing tag by name is updated
under store identity 5 with no table growth. -/
theorem spec_C1_witness :
    uniquesOf stOne "api::tag.tag" = [] ∧
    objGet (.vObj [("name", .vStr "a"), ("desc", .vStr "d")]) "name" =
      some (.vStr "a") ∧
    truthy (.vStr "a") = true ∧
    dbFindOne stOne "api::tag.tag" [("name", .vStr "a")] =
      some (.vObj [("name", .vStr "a"), ("id", .vNum 5)]) ∧
    objGet (.vObj [("name", .vStr "a"), ("id", .vNum 5)]) "id" =
      some (.vNum 5) ∧
    (∃ m st', updateOrCreateCollectionType "api::tag.tag"
        (.vObj [("name", .vStr "a"), ("desc", .vStr "d")]) "name" stOne =
          (.ok m, st') ∧
      objGet m "id" = some (.vNum 5) ∧
      (tableOf st' "api::tag.tag").length =
        (tableOf stOne "api::tag.tag").length) :=
  ⟨rfl, rfl, rfl, rfl, rfl,
    (spec_C1 "api::tag.tag" (.vObj [("name", .vStr "a"), ("desc", .vStr "d")])
        "name" stOne rfl).1
      (.vStr "a") (.vObj [("name", .vStr "a"), ("id", .vNum 5)]) 5 rfl rfl rfl rfl⟩

theorem importOtherSlugLoop_length (fuel : Nat) (env : Env) (user : User)
    (slug idField : String) (hasDnP : Bool) :
    ∀ (data : List Value) (st : Store),
      (importOtherSlugLoop fuel env user slug idField hasDnP data st).1.length =
        data.length := by
  intro data
  induction data with
  | nil => intro st; simp [importOtherSlugLoop]
  | cons d rest ih =>
    intro st
    rcases h : updateOrCreate fuel env user slug (preprocessRecord hasDnP d) idField st
      with ⟨r, st1⟩
    cases r with
    | ok v =>
      rcases hloop : importOtherSlugLoop fuel env user slug idField hasDnP rest st1
        with ⟨ps, st2⟩
      have := ih st1
      rw [hloop] at this
      simp [importOtherSlugLoop, h, hloop]
      simpa using this
    | error e =>
      rcases hloop : importOtherSlugLoop fuel env user slug idField hasDnP rest st1
        with ⟨ps, st2⟩
      have := ih st1
      rw [hloop] at this
      simp [importOtherSlugLoop, h, hloop]
      simpa using this

/-- C2: the import loop attempts every record independently: a record whose
upsert succeeds contributes nothing to the failure list and the loop
continues in the updated store; a record whose upsert throws contributes
exactly the failure entry with its message and record, and the remaining
records are still attempted from the state reached at the throw point; the
number of attempts always equals the number of records. -/
theorem spec_C2 (fuel : Nat) (env : Env) (user : User) (slug idField : String)
    (hasDnP importAsDrafts : Bool) (d : Value) (rest : List Value) (st : Store) :
    (∀ v st1, updateOrCreate fuel env user slug (preprocessRecord hasDnP d) idField st =
        (.ok v, st1) →
      importOtherSlug fuel env user slug idField hasDnP importAsDrafts (d :: rest) st =
        importOtherSlug fuel env user slug idField hasDnP importAsDrafts rest st1) ∧
    (∀ e st1, updateOrCreate fuel env user slug (preprocessRecord hasDnP d) idField st =
        (.error e, st1) →
      (importOtherSlug fuel env user slug idField hasDnP importAsDrafts (d :: rest) st).1.failures =
        { error := e, data := preprocessRecord hasDnP d } ::
          (importOtherSlug fuel env user slug idField hasDnP importAsDrafts rest st1).1.failures ∧
      (importOtherSlug fuel env user slug idField hasDnP importAsDrafts (d :: rest) st).2 =
        (importOtherSlug fuel env user slug idField hasDnP importAsDrafts rest st1).2) ∧
    (∀ (data : List Value) (st0 : Store),
      (importOtherSlugLoop fuel env user slug idField hasDnP data st0).1.length =
        data.length) := by
  refine ⟨?_, ?_, importOtherSlugLoop_length fuel env user slug idField hasDnP⟩
  · intro v st1 h
    rcases hloop : importOtherSlugLoop fuel env user slug idField hasDnP rest st1
      with ⟨ps, st2⟩
    simp [importOtherSlug, importOtherSlugLoop, h, hloop]
  · intro e st1 h
    rcases hloop : importOtherSlugLoop fuel env user slug idField hasDnP rest st1
      with ⟨ps, st2⟩
    constructor
    · simp [importOtherSlug, importOtherSlugLoop, h, hloop]
    · simp [importOtherSlug, importOtherSlugLoop, h, hloop]

theorem updateOrCreate_eval (g : Nat) (env : Env) (user : User) (slug : String)
    (data : Value) (idField : String) (st : Store) (m : Model)
    (hattrs : getModelAttributes env slug relationTypeTags = [])
    (hm : getModel env slug = some m) (hkind : (m.kind == "singleType") = false) :
    updateOrCreate (g+1) env user slug data idField st =
      updateOrCreateCollectionType slug data idField st := by
  simp [updateOrCreate, hattrs, resolveAttributes, hm, hkind]

/-- Witness for C2: with a unique-name constraint, the first record's
create fails and is recorded while the second record is still attempted. -/
theorem spec_C2_witness :
    updateOrCreate 1 envA userA "api::tag.tag"
        (preprocessRecord false (.vObj [("name", .vStr "a")])) "id" stUniq =
      (.error "This attribute must be unique", stUniq) ∧
    (importOtherSlug 1 envA userA "api::tag.tag" "id" false true
        [.vObj [("name", .vStr "a")], .vObj [("name", .vStr "b")]] stUniq).1.failures =
      { error := "This attribute must be unique",
        data := preprocessRecord false (.vObj [("name", .vStr "a")]) } ::
        (importOtherSlug 1 envA userA "api::tag.tag" "id" false true
          [.vObj [("name", .vStr "b")]] stUniq).1.failures := by
  have heval : updateOrCreate (0+1) envA userA "api::tag.tag"
      (preprocessRecord false (.vObj [("name", .vStr "a")])) "id" stUniq =
      (.error "This attribute must be unique", stUniq) := by
    rw [updateOrCreate_eval 0 envA userA "api::tag.tag" _ "id" stUniq tagModel rfl rfl rfl]
    rfl
  exact ⟨heval,
    ((spec_C2 1 envA userA "api::tag.tag" "id" false true
        (.vObj [("name", .vStr "a")]) [.vObj [("name", .vStr "b")]] stUniq).2.1
      "This attribute must be unique" stUniq heval).1⟩

/-- An entity carries a numeric store identity. -/
def entityIdNum (e : Value) : Prop :=
  ∃ n : Int, objGet e "id" = some (.vNum n)

/-- A well-formed store: every entity of every table carries a numeric
store identity. -/
def StoreWF (st : Store) : Prop :=
  ∀ slug e, e ∈ tableOf st slug → entityIdNum e

theorem updateFirst_some_inv (p : Value → Bool) (mk : Value → Value) :
    ∀ (l : List Value) (m : Value) (l' : List Value),
      updateFirst p mk l = some (m, l') →
      ∃ e0, e0 ∈ l ∧ p e0 = true ∧ m = mk e0 ∧ (∀ x ∈ l', x ∈ l ∨ x = m) := by
  intro l
  induction l with
  | nil => intro m l' h; simp [updateFirst] at h
  | cons x rest ih =>
    intro m l' h
    by_cases hx : p x = true
    · simp [updateFirst, hx] at h
      obtain ⟨h1, h2⟩ := h
      refine ⟨x, List.mem_cons_self x rest, hx, h1.symm, ?_⟩
      intro y hy
      rw [← h2] at hy
      rcases List.mem_cons.mp hy with h | h
      · right; rw [h, ← h1]
      · left; exact List.mem_cons_of_mem x h
    · simp only [updateFirst, if_neg hx] at h
      rcases hrec : updateFirst p mk rest with _ | ⟨m0, rest'⟩
      · rw [hrec] at h; cases h
      · rw [hrec] at h
        simp at h
        obtain ⟨h1, h2⟩ := h
        obtain ⟨e0, he1, he2, he3, he4⟩ := ih m0 rest' hrec
        refine ⟨e0, List.mem_cons_of_mem x he1, he2, by rw [← h1, he3], ?_⟩
        intro y hy
        rw [← h2] at hy
        rcases List.mem_cons.mp hy with h | h
        · left; rw [h]; exact List.mem_cons_self x rest
        · rcases he4 y h with h' | h'
          · left; exact List.mem_cons_of_mem x h'
          · right; rw [h', ← h1]

theorem tableOf_withNextWrites (base : Store) (n : Int)
    (w : List (String × Value)) (slug : String) :
    tableOf (Store.mk base.tables n base.uniques w) slug = tableOf base slug := rfl

theorem storeWF_dbCreate (st : Store) (slug : String) (data : Value)
    (hwf : StoreWF st) :
    StoreWF (dbCreate st slug data).2 ∧
    ∀ e, (dbCreate st slug data).1 = .ok e → entityIdNum e := by
  by_cases h1 : isObjectSafe data = true
  · by_cases h2 : uniqueViolation st slug (tableOf st slug) data = true
    · simp [dbCreate, h1, h2]
      exact hwf
    · have h2' : uniqueViolation st slug (tableOf st slug) data = false := by
        simpa using h2
      have hid : entityIdNum (objSet data "id" (.vNum st.nextId)) :=
        ⟨st.nextId, objGet_objSet_self data "id" _ h1⟩
      constructor
      · intro slug2 e he
        simp [dbCreate, h1, h2'] at he
        rw [tableOf_withNextWrites] at he
        by_cases hs : slug2 = slug
        · subst hs
          rw [tableOf_setTable_self] at he
          rcases List.mem_append.mp he with h | h
          · exact hwf slug2 e h
          · rw [List.mem_singleton.mp h]; exact hid
        · rw [tableOf_setTable_ne st slug slug2 _ hs] at he
          exact hwf slug2 e he
      · intro e he
        simp [dbCreate, h1, h2'] at he
        rw [← he]
        exact hid
  · have h1' : isObjectSafe data = false := by simpa using h1
    simp [dbCreate, h1']
    exact hwf

theorem storeWF_dbUpdate (st : Store) (slug : String) (idv : Value) (data : Value)
    (hwf : StoreWF st) (hnum : ∃ nI : Int, idv = .vNum nI) :
    StoreWF (dbUpdate st slug idv data).2 ∧
    ∀ e, (dbUpdate st slug idv data).1 = .ok e → entityIdNum e := by
  by_cases h1 : isObjectSafe data = true
  · rcases hup : updateFirst (hasId idv)
        (fun e => objSet (objMerge e data) "id" idv) (tableOf st slug)
      with _ | ⟨m, tbl'⟩
    · simp [dbUpdate, h1, hup]
      exact hwf
    · obtain ⟨e0, he1, he2, he3, he4⟩ := updateFirst_some_inv _ _ _ _ _ hup
      obtain ⟨nI, hnI⟩ := hnum
      have hmid : entityIdNum m := by
        rw [he3, hnI]
        exact ⟨nI, objGet_objSet_self _ _ _
          (isObjectSafe_objMerge e0 data (isObjectSafe_of_hasId idv e0 he2))⟩
      constructor
      · intro slug2 e he
        simp [dbUpdate, h1, hup] at he
        rw [tableOf_withNextWrites] at he
        by_cases hs : slug2 = slug
        · subst hs
          rw [tableOf_setTable_self] at he
          rcases he4 e he with h | h
          · exact hwf slug2 e h
          · rw [h]; exact hmid
        · rw [tableOf_setTable_ne st slug slug2 _ hs] at he
          exact hwf slug2 e he
      · intro e he
        simp [dbUpdate, h1, hup] at he
        rw [← he]
        exact hmid
  · have h1' : isObjectSafe data = false := by simpa using h1
    simp [dbUpdate, h1']
    exact hwf

theorem storeWF_uocST (slug : String) (data : Value) (idField : String)
    (st : Store) (hwf : StoreWF st) :
    StoreWF (updateOrCreateSingleType slug data idField st).2 ∧
    ∀ e, (updateOrCreateSingleType slug data idField st).1 = .ok e →
      entityIdNum e := by
  unfold updateOrCreateSingleType
  cases hm : dbFindMany st slug with
  | nil => exact storeWF_dbCreate st slug _ hwf
  | cons entry rest =>
    have hmem : entry ∈ tableOf st slug := by
      unfold dbFindMany at hm
      rw [hm]
      exact List.mem_cons_self entry rest
    obtain ⟨n, hn⟩ := hwf slug entry hmem
    exact storeWF_dbUpdate st slug ((objGet entry "id").getD .vNull)
      (objDelete data "id") hwf ⟨n, by rw [hn]; rfl⟩

theorem storeWF_uocCT (slug : String) (data : Value) (idField : String)
    (st : Store) (hwf : StoreWF st) :
    StoreWF (updateOrCreateCollectionType slug data idField st).2 ∧
    ∀ e, (updateOrCreateCollectionType slug data idField st).1 = .ok e →
      entityIdNum e := by
  have create := fun d3 => storeWF_dbCreate st slug d3 hwf
  simp only [updateOrCreateCollectionType]
  split
  · rename_i h
    have hx : truthy ((objGet data idField).getD .vNull) = true := by
      cases ho : objGet data idField with
      | none => rw [ho] at h; simp [truthyOpt] at h
      | some v => rw [ho] at h; simpa [truthyOpt] using h
    have hcond : ¬ ((!truthyOpt (List.lookup idField
        [(idField, (objGet data idField).getD Value.vNull)])) = true) := by
      simp [List.lookup_cons, truthyOpt, hx]
    rw [if_neg hcond]
    cases hfind : dbFindOne st slug
        [(idField, (objGet data idField).getD Value.vNull)] with
    | none => simp only [hfind]; exact create _
    | some existing =>
      simp only [hfind]
      have hmem : existing ∈ tableOf st slug :=
        List.mem_of_find?_eq_some (by simpa [dbFindOne] using hfind)
      obtain ⟨n, hn⟩ := hwf slug existing hmem
      exact storeWF_dbUpdate st slug ((objGet existing "id").getD .vNull) _
        hwf ⟨n, by rw [hn]; rfl⟩
  · have hcond : (!truthyOpt (List.lookup idField
        ([] : List (String × Value)))) = true := by
      simp [List.lookup, truthyOpt]
    rw [if_pos hcond]
    exact create _

theorem mediaEntryIds_store (env : Env) : ∀ (ds : List Value) (st : Store),
    (mediaEntryIds env ds st).2 = st := by
  intro ds
  induction ds with
  | nil => intro st; simp [mediaEntryIds]
  | cons d rest ih =>
    intro st
    rcases hf : findOrImportFile env d st with ⟨r, st1⟩
    have hst1 : st1 = st := by
      unfold findOrImportFile at hf
      cases hfind : env.media.find? (fun p => beqV p.1 d) with
      | none => rw [hfind] at hf; cases hf; rfl
      | some p => rw [hfind] at hf; cases hf; rfl
    rw [hst1] at hf
    cases r with
    | ok media =>
      rcases hrec : mediaEntryIds env rest st with ⟨res, st2⟩
      have hih := ih st
      rw [hrec] at hih
      cases res with
      | ok ids => simp [mediaEntryIds, hf, hrec]; exact hih
      | error e => simp [mediaEntryIds, hf, hrec]; exact hih
    | error e => simp [mediaEntryIds, hf]

/-- The upsert engine preserves store well-formedness and returns entities
with numeric identities, at a given fuel. -/
def UocWF (f : Nat) : Prop :=
  ∀ env user slug data idField st, StoreWF st →
    StoreWF (updateOrCreate f env user slug data idField st).2 ∧
    ∀ e, (updateOrCreate f env user slug data idField st).1 = .ok e →
      entityIdNum e

/-- The attribute-resolution loop preserves store well-formedness. -/
def ResolveWF (f : Nat) : Prop :=
  ∀ env user attrs data st, StoreWF st →
    StoreWF (resolveAttributes f env user attrs data st).2

/-- The relation resolver preserves store well-formedness. -/
def UocRelWF (f : Nat) : Prop :=
  ∀ env user rel rdo st, StoreWF st →
    StoreWF (updateOrCreateRelation f env user rel rdo st).2

/-- The relation/component entry loop preserves store well-formedness and
collects only numeric ids. -/
def RelIdsWF (f : Nat) : Prop :=
  ∀ env user target ds st, StoreWF st →
    StoreWF (relationEntryIds f env user target ds st).2 ∧
    ∀ ids, (relationEntryIds f env user target ds st).1 = .ok ids →
      ∀ x ∈ ids, ∃ n : Int, x = .vNum n

/-- The dynamic-union loop preserves store well-formedness. -/
def DzWF (f : Nat) : Prop :=
  ∀ env user cds st, StoreWF st →
    StoreWF (dynamicZoneEntries f env user cds st).2

theorem uocWF_zero : UocWF 0 := by
  intro env user slug data idField st hwf
  constructor
  · simp only [updateOrCreate]; exact hwf
  · intro e he; simp [updateOrCreate] at he

theorem uocRelWF_zero : UocRelWF 0 := by
  intro env user rel rdo st hwf
  simp only [updateOrCreateRelation]
  exact hwf

theorem relIdsWF_of (f : Nat) (huoc : UocWF f) : RelIdsWF f := by
  intro env user target ds
  induction ds with
  | nil =>
    intro st hwf
    constructor
    · simp [relationEntryIds]; exact hwf
    · intro ids h x hx
      simp [relationEntryIds] at h
      subst h
      cases hx
  | cons d rest ih =>
    intro st hwf
    cases d with
    | vNum n =>
      rcases hrec : relationEntryIds f env user target rest st with ⟨res, st1⟩
      have hi := ih st hwf
      rw [hrec] at hi
      cases res with
      | ok ids =>
        constructor
        · simp [relationEntryIds, hrec]; exact hi.1
        · intro ids2 h2 x hx
          simp [relationEntryIds, hrec] at h2
          rw [← h2] at hx
          rcases List.mem_cons.mp hx with h | h
          · exact ⟨n, h⟩
          · exact hi.2 ids rfl x h
      | error e =>
        constructor
        · simp [relationEntryIds, hrec]; exact hi.1
        · intro ids2 h2; simp [relationEntryIds, hrec] at h2
    | vObj fs =>
      rcases huoc' : updateOrCreate f env user target (.vObj fs) "id" st
        with ⟨r1, st1⟩
      have h1 := huoc env user target (.vObj fs) "id" st hwf
      rw [huoc'] at h1
      cases r1 with
      | error e =>
        constructor
        · simp [relationEntryIds, huoc']; exact h1.1
        · intro ids2 h2; simp [relationEntryIds, huoc'] at h2
      | ok entry =>
        obtain ⟨n, hn⟩ := h1.2 entry rfl
        rcases hrec : relationEntryIds f env user target rest st1 with ⟨res, st2⟩
        have hi := ih st1 h1.1
        rw [hrec] at hi
        cases res with
        | ok ids =>
          constructor
          · simp [relationEntryIds, huoc', hrec]; exact hi.1
          · intro ids2 h2 x hx
            simp [relationEntryIds, huoc', hrec] at h2
            rw [← h2] at hx
            rw [hn] at hx
            simp [truthy] at hx
            by_cases hz : n = 0
            · rw [if_pos hz] at hx
              exact hi.2 ids rfl x hx
            · rw [if_neg hz] at hx
              rcases List.mem_cons.mp hx with h | h
              · exact ⟨n, h⟩
              · exact hi.2 ids rfl x h
        | error e =>
          constructor
          · simp [relationEntryIds, huoc', hrec]; exact hi.1
          · intro ids2 h2; simp [relationEntryIds, huoc', hrec] at h2
    | vNull =>
      have hi := ih st hwf
      constructor
      · simp [relationEntryIds]; exact hi.1
      · intro ids h2
        simp [relationEntryIds] at h2
        exact hi.2 ids h2
    | vBool b =>
      have hi := ih st hwf
      constructor
      · simp [relationEntryIds]; exact hi.1
      · intro ids h2
        simp [relationEntryIds] at h2
        exact hi.2 ids h2
    | vStr s =>
      have hi := ih st hwf
      constructor
      · simp [relationEntryIds]; exact hi.1
      · intro ids h2
        simp [relationEntryIds] at h2
        exact hi.2 ids h2
    | vArr xs =>
      have hi := ih st hwf
      constructor
      · simp [relationEntryIds]; exact hi.1
      · intro ids h2
        simp [relationEntryIds] at h2
        exact hi.2 ids h2

theorem dzWF_of (f : Nat) (huoc : UocWF f) : DzWF f := by
  intro env user cds
  induction cds with
  | nil => intro st hwf; simp [dynamicZoneEntries]; exact hwf
  | cons cd rest ih =>
    intro st hwf
    rcases huoc' : updateOrCreate f env user
        (match objGet cd "__component" with
         | some (.vStr s) => s
         | _ => "") cd "id" st with ⟨r1, st1⟩
    have h1 := huoc env user
      (match objGet cd "__component" with
       | some (.vStr s) => s
       | _ => "") cd "id" st hwf
    rw [huoc'] at h1
    cases r1 with
    | error e => simp [dynamicZoneEntries, huoc']; exact h1.1
    | ok entry =>
      rcases hrec : dynamicZoneEntries f env user rest st1 with ⟨res, st2⟩
      have hi := ih st1 h1.1
      rw [hrec] at hi
      cases res with
      | ok comps => simp [dynamicZoneEntries, huoc', hrec]; exact hi
      | error e => simp [dynamicZoneEntries, huoc', hrec]; exact hi

theorem resolveWF_of (f : Nat) (huocRel : UocRelWF f) : ResolveWF f := by
  intro env user attrs
  induction attrs with
  | nil => intro data st hwf; simp [resolveAttributes]; exact hwf
  | cons a rest ih =>
    intro data st hwf
    rcases hr : updateOrCreateRelation f env user a (objGet data a.name) st
      with ⟨r, st1⟩
    have h1 := huocRel env user a (objGet data a.name) st hwf
    rw [hr] at h1
    cases r with
    | ok v => simp [resolveAttributes, hr]; exact ih (objSet data a.name v) st1 h1
    | error e => simp [resolveAttributes, hr]; exact h1

theorem storeWF_relIds_match (f : Nat) (env : Env) (user : User) (t : String)
    (rd : List Value) (st : Store) (hwf : StoreWF st) (hids : RelIdsWF f)
    (k : List Value → Value) :
    StoreWF ((match relationEntryIds f env user t rd st with
      | (.ok ids, st1) => ((Except.ok (k ids) : Except String Value), st1)
      | (.error e, st1) => (.error e, st1)).2) := by
  rcases h : relationEntryIds f env user t rd st with ⟨res, st1⟩
  have hh := (hids env user t rd st hwf).1
  rw [h] at hh
  cases res <;> simpa using hh

theorem storeWF_dz_match (f : Nat) (env : Env) (user : User)
    (cds : List Value) (st : Store) (hwf : StoreWF st) (hdz : DzWF f) :
    StoreWF ((match dynamicZoneEntries f env user cds st with
      | (.ok comps, st1) => ((Except.ok (Value.vArr comps) : Except String Value), st1)
      | (.error e, st1) => (.error e, st1)).2) := by
  rcases h : dynamicZoneEntries f env user cds st with ⟨res, st1⟩
  have hh := hdz env user cds st hwf
  rw [h] at hh
  cases res <;> simpa using hh

theorem storeWF_media_match (env : Env) (rd : List Value) (st : Store)
    (hwf : StoreWF st) (k : List Value → Value) :
    StoreWF ((match mediaEntryIds env rd st with
      | (.ok ids, st1) => ((Except.ok (k ids) : Except String Value), st1)
      | (.error e, st1) => (.error e, st1)).2) := by
  rcases h : mediaEntryIds env rd st with ⟨res, st1⟩
  have hh := mediaEntryIds_store env rd st
  rw [h] at hh
  have hh2 : st1 = st := hh
  cases res with
  | ok ids =>
    show StoreWF st1
    rw [hh2]; exact hwf
  | error e =>
    show StoreWF st1
    rw [hh2]; exact hwf

theorem uocWF_succ (g : Nat) (hres : ResolveWF g) : UocWF (g+1) := by
  intro env user slug data idField st hwf
  rcases hr : resolveAttributes g env user
      (getModelAttributes env slug relationTypeTags) data st with ⟨res, st1⟩
  have hwf1 : StoreWF st1 := by
    have := hres env user (getModelAttributes env slug relationTypeTags) data st hwf
    rw [hr] at this
    exact this
  cases res with
  | error e =>
    constructor
    · simp [updateOrCreate, hr]; exact hwf1
    · intro e2 h2; simp [updateOrCreate, hr] at h2
  | ok data1 =>
    cases hm : getModel env slug with
    | none =>
      constructor
      · simp [updateOrCreate, hr, hm]; exact hwf1
      · intro e2 h2; simp [updateOrCreate, hr, hm] at h2
    | some m =>
      by_cases hk : (m.kind == "singleType") = true
      · have hst := storeWF_uocST slug data1 idField st1 hwf1
        constructor
        · simp [updateOrCreate, hr, hm, hk]; exact hst.1
        · intro e2 h2
          apply hst.2
          simpa [updateOrCreate, hr, hm, hk] using h2
      · have hk' : (m.kind == "singleType") = false := by simpa using hk
        have hct := storeWF_uocCT slug data1 idField st1 hwf1
        constructor
        · simp [updateOrCreate, hr, hm, hk']; exact hct.1
        · intro e2 h2
          apply hct.2
          simpa [updateOrCreate, hr, hm, hk'] using h2

theorem uocRelWF_succ (g : Nat) (hids : RelIdsWF g) (hdz : DzWF g) :
    UocRelWF (g+1) := by
  intro env user rel rdo st hwf
  cases rdo with
  | none => simp only [updateOrCreateRelation]; exact hwf
  | some relData =>
    by_cases h1 : (rel.name == "createdBy" || rel.name == "updatedBy") = true
    · cases relData <;>
        first
        | (simp only [updateOrCreateRelation]; exact hwf)
        | (simp only [updateOrCreateRelation, h1, if_true]; exact hwf)
    · have h1' : (rel.name == "createdBy" || rel.name == "updatedBy") = false := by
        simpa using h1
      by_cases h2 : (rel.type == "dynamiczone") = true
      · cases relData with
        | vNull => simp only [updateOrCreateRelation]; exact hwf
        | vArr cds =>
          simp only [updateOrCreateRelation, h1', h2, Bool.false_eq_true,
            if_false, if_true]
          exact storeWF_dz_match g env user cds st hwf hdz
        | vBool b => simp [updateOrCreateRelation, h1', h2]; exact hwf
        | vNum n => simp [updateOrCreateRelation, h1', h2]; exact hwf
        | vStr s => simp [updateOrCreateRelation, h1', h2]; exact hwf
        | vObj fs => simp [updateOrCreateRelation, h1', h2]; exact hwf
      · have h2' : (rel.type == "dynamiczone") = false := by simpa using h2
        by_cases h3 : (rel.type == "component") = true
        · cases relData with
          | vNull => simp only [updateOrCreateRelation]; exact hwf
          | vArr cds =>
            simp only [updateOrCreateRelation, h1', h2', h3, Bool.false_eq_true,
              if_false, if_true]
            exact storeWF_relIds_match g env user rel.component _ st hwf hids _
          | vBool b =>
            simp only [updateOrCreateRelation, h1', h2', h3, Bool.false_eq_true,
              if_false, if_true]
            exact storeWF_relIds_match g env user rel.component _ st hwf hids _
          | vNum n =>
            simp only [updateOrCreateRelation, h1', h2', h3, Bool.false_eq_true,
              if_false, if_true]
            exact storeWF_relIds_match g env user rel.component _ st hwf hids _
          | vStr s =>
            simp only [updateOrCreateRelation, h1', h2', h3, Bool.false_eq_true,
              if_false, if_true]
            exact storeWF_relIds_match g env user rel.component _ st hwf hids _
          | vObj fs =>
            simp only [updateOrCreateRelation, h1', h2', h3, Bool.false_eq_true,
              if_false, if_true]
            exact storeWF_relIds_match g env user rel.component _ st hwf hids _
        · have h3' : (rel.type == "component") = false := by simpa using h3
          by_cases h4 : (rel.type == "media") = true
          · cases relData with
            | vNull => simp only [updateOrCreateRelation]; exact hwf
            | vArr cds =>
              simp only [updateOrCreateRelation, h1', h2', h3', h4,
                Bool.false_eq_true, if_false, if_true]
              exact storeWF_media_match env _ st hwf _
            | vBool b =>
              simp only [updateOrCreateRelation, h1', h2', h3', h4,
                Bool.false_eq_true, if_false, if_true]
              exact storeWF_media_match env _ st hwf _
            | vNum n =>
              simp only [updateOrCreateRelation, h1', h2', h3', h4,
                Bool.false_eq_true, if_false, if_true]
              exact storeWF_media_match env _ st hwf _
            | vStr s =>
              simp only [updateOrCreateRelation, h1', h2', h3', h4,
                Bool.false_eq_true, if_false, if_true]
              exact storeWF_media_match env _ st hwf _
            | vObj fs =>
              simp only [updateOrCreateRelation, h1', h2', h3', h4,
                Bool.false_eq_true, if_false, if_true]
              exact storeWF_media_match env _ st hwf _
          · have h4' : (rel.type == "media") = false := by simpa using h4
            by_cases h5 : (rel.type == "relation") = true
            · cases relData with
              | vNull => simp only [updateOrCreateRelation]; exact hwf
              | vArr cds =>
                simp only [updateOrCreateRelation, h1', h2', h3', h4', h5,
                  Bool.false_eq_true, if_false, if_true]
                exact storeWF_relIds_match g env user rel.target _ st hwf hids _
              | vBool b =>
                simp only [updateOrCreateRelation, h1', h2', h3', h4', h5,
                  Bool.false_eq_true, if_false, if_true]
                exact storeWF_relIds_match g env user rel.target _ st hwf hids _
              | vNum n =>
                simp only [updateOrCreateRelation, h1', h2', h3', h4', h5,
                  Bool.false_eq_true, if_false, if_true]
                exact storeWF_relIds_match g env user rel.target _ st hwf hids _
              | vStr s =>
                simp only [updateOrCreateRelation, h1', h2', h3', h4', h5,
                  Bool.false_eq_true, if_false, if_true]
                exact storeWF_relIds_match g env user rel.target _ st hwf hids _
              | vObj fs =>
                simp only [updateOrCreateRelation, h1', h2', h3', h4', h5,
                  Bool.false_eq_true, if_false, if_true]
                exact storeWF_relIds_match g env user rel.target _ st hwf hids _
            · have h5' : (rel.type == "relation") = false := by simpa using h5
              cases relData <;>
                first
                | (simp only [updateOrCreateRelation]; exact hwf)
                | (simp [updateOrCreateRelation, h1', h2', h3', h4', h5']; exact hwf)

theorem storeWF_engine : ∀ fuel : Nat,
    UocWF fuel ∧ ResolveWF fuel ∧ UocRelWF fuel ∧ RelIdsWF fuel ∧ DzWF fuel := by
  intro fuel
  induction fuel with
  | zero =>
    exact ⟨uocWF_zero, resolveWF_of 0 uocRelWF_zero, uocRelWF_zero,
      relIdsWF_of 0 uocWF_zero, dzWF_of 0 uocWF_zero⟩
  | succ g ih =>
    obtain ⟨ihUoc, ihRes, ihRel, ihIds, ihDz⟩ := ih
    have hUoc : UocWF (g+1) := uocWF_succ g ihRes
    have hRel : UocRelWF (g+1) := uocRelWF_succ g ihIds ihDz
    exact ⟨hUoc, resolveWF_of (g+1) hRel, hRel,
      relIdsWF_of (g+1) hUoc, dzWF_of (g+1) hUoc⟩

theorem relationEntryIds_nums (f : Nat) (env : Env) (user : User) (target : String) :
    ∀ (ns : List Int) (st : Store),
      relationEntryIds f env user target (ns.map Value.vNum) st =
        (.ok (ns.map Value.vNum), st) := by
  intro ns
  induction ns with
  | nil => intro st; simp [relationEntryIds]
  | cons n rest ih => intro st; simp [relationEntryIds, ih st]

theorem toArray_of_not_array (v : Value) (h : isArraySafe v = false) :
    toArray v = [v] := by
  cases v <;> simp_all [isArraySafe, toArray]

theorem uocRel_relation_eq (g : Nat) (env : Env) (user : User) (rel : Attribute)
    (v : Value) (st : Store) (hv : v ≠ .vNull) (ht : rel.type = "relation")
    (hn : (rel.name == "createdBy" || rel.name == "updatedBy") = false) :
    updateOrCreateRelation (g+1) env user rel (some v) st =
      (match relationEntryIds g env user rel.target (toArray v) st with
       | (.ok ids, st1) =>
         ((.ok (if isArraySafe v then .vArr ids else headOrNull ids) :
            Except String Value), st1)
       | (.error e, st1) => (.error e, st1)) := by
  cases v with
  | vNull => exact absurd rfl hv
  | vBool b => simp [updateOrCreateRelation, hn, ht, isArraySafe]
  | vNum n => simp [updateOrCreateRelation, hn, ht, isArraySafe]
  | vStr s => simp [updateOrCreateRelation, hn, ht, isArraySafe]
  | vArr xs => simp [updateOrCreateRelation, hn, ht, isArraySafe]
  | vObj fs => simp [updateOrCreateRelation, hn, ht, isArraySafe]

/-- C5: for a relation-type attribute (outside the audit-actor names), the
resolver's output shape mirrors the input's shape regardless of the
attribute's declared cardinality: on a well-formed store a successful
resolution of an array input is an array of numeric ids, and of a scalar
input is a single numeric id or null; an array of bare numbers resolves to
itself with the store untouched, and a bare nonzero number to itself. -/
theorem spec_C5 (g : Nat) (env : Env) (user : User) (rel : Attribute)
    (v : Value) (st : Store) (ht : rel.type = "relation")
    (hn1 : rel.name ≠ "createdBy") (hn2 : rel.name ≠ "updatedBy")
    (hwf : StoreWF st) :
    (∀ r st', updateOrCreateRelation (g+1) env user rel (some v) st =
        (.ok r, st') →
      (isArraySafe v = true →
        ∃ ids, r = .vArr ids ∧ ∀ x ∈ ids, ∃ n : Int, x = .vNum n) ∧
      (isArraySafe v = false → (∃ n : Int, r = .vNum n) ∨ r = .vNull)) ∧
    (∀ ns : List Int, v = .vArr (ns.map Value.vNum) →
       updateOrCreateRelation (g+1) env user rel (some v) st =
         (.ok (.vArr (ns.map Value.vNum)), st)) ∧
    (∀ n : Int, v = .vNum n → n ≠ 0 →
       updateOrCreateRelation (g+1) env user rel (some v) st =
         (.ok (.vNum n), st)) := by
  have hn : (rel.name == "createdBy" || rel.name == "updatedBy") = false := by
    simp [hn1, hn2]
  refine ⟨?_, ?_, ?_⟩
  · intro r st' hok
    by_cases hv : v = .vNull
    · subst hv
      rw [uocRel_null] at hok
      have hr : r = .vNull := by
        injection hok with h1 h2
        injection h1 with h1
        exact h1.symm
      constructor
      · intro ha; simp [isArraySafe] at ha
      · intro _; right; exact hr
    · rw [uocRel_relation_eq g env user rel v st hv ht hn] at hok
      rcases hids : relationEntryIds g env user rel.target (toArray v) st
        with ⟨res, st1⟩
      rw [hids] at hok
      cases res with
      | error e => cases hok
      | ok ids =>
        have hall : ∀ x ∈ ids, ∃ n : Int, x = .vNum n := by
          have := (storeWF_engine g).2.2.2.1 env user rel.target (toArray v) st hwf
          exact this.2 ids (by rw [hids])
        have hr : r = (if isArraySafe v then .vArr ids else headOrNull ids) := by
          injection hok with h1 h2
          injection h1 with h1
          exact h1.symm
        constructor
        · intro ha
          rw [hr, if_pos ha]
          exact ⟨ids, rfl, hall⟩
        · intro ha
          have ha' : ¬ (isArraySafe v = true) := by simp [ha]
          cases ids with
          | nil => right; rw [hr, if_neg ha']; simp [headOrNull]
          | cons x rest =>
            obtain ⟨n, hn0⟩ := hall x (List.mem_cons_self x rest)
            by_cases hz : truthy x = true
            · left
              refine ⟨n, ?_⟩
              rw [hr, if_neg ha']
              rw [hn0] at hz
              simp [headOrNull, hz, hn0]
            · have hz' : truthy x = false := by simpa using hz
              right
              rw [hr, if_neg ha']
              simp [headOrNull, hz']
  · intro ns hv
    subst hv
    rw [uocRel_relation_eq g env user rel _ st (by simp) ht hn]
    rw [show toArray (Value.vArr (ns.map Value.vNum)) = ns.map Value.vNum from rfl]
    rw [relationEntryIds_nums g env user rel.target ns st]
    simp [isArraySafe]
  · intro n hv hz
    subst hv
    rw [uocRel_relation_eq g env user rel _ st (by simp) ht hn]
    rw [toArray_of_not_array _ (by simp [isArraySafe])]
    rw [show ([Value.vNum n] : List Value) =
      ([n] : List Int).map Value.vNum from rfl]
    rw [relationEntryIds_nums g env user rel.target [n] st]
    simp [isArraySafe, headOrNull, truthy, hz]

theorem relationEntryIds_skip (f : Nat) (env : Env) (user : User) (target : String)
    (e : Value) (hnum : ∀ n : Int, e ≠ .vNum n) (hobj : isObjectSafe e = false) :
    ∀ (xs ys : List Value) (st : Store),
      relationEntryIds f env user target (xs ++ e :: ys) st =
        relationEntryIds f env user target (xs ++ ys) st := by
  intro xs
  induction xs with
  | nil =>
    intro ys st
    cases e with
    | vNum n => exact absurd rfl (hnum n)
    | vObj fs => simp [isObjectSafe] at hobj
    | vNull => simp [relationEntryIds]
    | vBool b => simp [relationEntryIds]
    | vStr s => simp [relationEntryIds]
    | vArr zs => simp [relationEntryIds]
  | cons x xs ih =>
    intro ys st
    cases x <;> simp [relationEntryIds, ih]

theorem uocRel_component_eq (g : Nat) (env : Env) (user : User) (rel : Attribute)
    (v : Value) (st : Store) (hv : v ≠ .vNull) (ht : rel.type = "component")
    (hn : (rel.name == "createdBy" || rel.name == "updatedBy") = false) :
    updateOrCreateRelation (g+1) env user rel (some v) st =
      (match relationEntryIds g env user rel.component
          (if rel.repeatable then toArray v else (toArray v).take 1) st with
       | (.ok ids, st1) =>
         ((.ok (if rel.repeatable then .vArr ids else headOrNull ids) :
            Except String Value), st1)
       | (.error e, st1) => (.error e, st1)) := by
  cases v with
  | vNull => exact absurd rfl hv
  | vBool b => simp [updateOrCreateRelation, hn, ht]
  | vNum n => simp [updateOrCreateRelation, hn, ht]
  | vStr s => simp [updateOrCreateRelation, hn, ht]
  | vArr xs => simp [updateOrCreateRelation, hn, ht]
  | vObj fs => simp [updateOrCreateRelation, hn, ht]

/-- C10: a relation or component list entry that is neither a number nor a
plain object is silently skipped: removing it from an array input leaves the
resolver's outcome unchanged (relation attributes, and repeatable component
attributes), and such a scalar input resolves without failure to null (or to
the empty id array for a repeatable component), contributing no id. -/
theorem spec_C10 (g : Nat) (env : Env) (user : User) (rel : Attribute) (st : Store)
    (e : Value) (hnum : ∀ n : Int, e ≠ .vNum n) (hobj : isObjectSafe e = false)
    (hn1 : rel.name ≠ "createdBy") (hn2 : rel.name ≠ "updatedBy") :
    (rel.type = "relation" →
      ∀ xs ys, updateOrCreateRelation (g+1) env user rel
          (some (.vArr (xs ++ e :: ys))) st =
        updateOrCreateRelation (g+1) env user rel (some (.vArr (xs ++ ys))) st) ∧
    (rel.type = "component" → rel.repeatable = true →
      ∀ xs ys, updateOrCreateRelation (g+1) env user rel
          (some (.vArr (xs ++ e :: ys))) st =
        updateOrCreateRelation (g+1) env user rel (some (.vArr (xs ++ ys))) st) ∧
    (rel.type = "relation" → e ≠ .vNull → isArraySafe e = false →
      updateOrCreateRelation (g+1) env user rel (some e) st = (.ok .vNull, st)) ∧
    (rel.type = "component" → e ≠ .vNull → isArraySafe e = false →
      updateOrCreateRelation (g+1) env user rel (some e) st =
        (.ok (if rel.repeatable then .vArr ([] : List Value) else .vNull), st)) := by
  have hn : (rel.name == "createdBy" || rel.name == "updatedBy") = false := by
    simp [hn1, hn2]
  refine ⟨?_, ?_, ?_, ?_⟩
  · intro ht xs ys
    rw [uocRel_relation_eq g env user rel _ st (by simp) ht hn]
    rw [uocRel_relation_eq g env user rel _ st (by simp) ht hn]
    simp only [toArray, isArraySafe]
    rw [relationEntryIds_skip g env user rel.target e hnum hobj xs ys st]
  · intro ht hrep xs ys
    rw [uocRel_component_eq g env user rel _ st (by simp) ht hn]
    rw [uocRel_component_eq g env user rel _ st (by simp) ht hn]
    simp only [toArray, hrep, if_true]
    rw [relationEntryIds_skip g env user rel.component e hnum hobj xs ys st]
  · intro ht hnn ha
    rw [uocRel_relation_eq g env user rel _ st hnn ht hn]
    rw [toArray_of_not_array _ ha]
    rw [show ([e] : List Value) = [] ++ e :: [] from rfl]
    rw [relationEntryIds_skip g env user rel.target e hnum hobj [] [] st]
    simp [relationEntryIds, ha, headOrNull]
  · intro ht hnn ha
    rw [uocRel_component_eq g env user rel _ st hnn ht hn]
    rw [toArray_of_not_array _ ha]
    have htake : (if rel.repeatable then ([e] : List Value) else [e].take 1) = [e] := by
      cases rel.repeatable <;> simp
    rw [htake]
    rw [show ([e] : List Value) = [] ++ e :: [] from rfl]
    rw [relationEntryIds_skip g env user rel.component e hnum hobj [] [] st]
    simp [relationEntryIds, headOrNull]

/-- Witness for C5: the number entries 3 and 5 of an array input are kept
as-is in the output array, and a bare number input yields itself. -/
theorem spec_C5_witness :
    (relTag.type = "relation" ∧ relTag.name ≠ "createdBy" ∧
      relTag.name ≠ "updatedBy" ∧ StoreWF stEmpty) ∧
    updateOrCreateRelation 1 envA userA relTag
        (some (.vArr [.vNum 3, .vNum 5])) stEmpty =
      (.ok (.vArr [.vNum 3, .vNum 5]), stEmpty) ∧
    updateOrCreateRelation 1 envA userA relTag (some (.vNum 9)) stEmpty =
      (.ok (.vNum 9), stEmpty) := by
  have hwf : StoreWF stEmpty := by
    intro slug e he
    simp [tableOf, stEmpty] at he
  refine ⟨⟨rfl, by decide, by decide, hwf⟩, ?_, ?_⟩
  · exact (spec_C5 0 envA userA relTag (.vArr [.vNum 3, .vNum 5]) stEmpty rfl
      (by decide) (by decide) hwf).2.1 [3, 5] rfl
  · exact (spec_C5 0 envA userA relTag (.vNum 9) stEmpty rfl
      (by decide) (by decide) hwf).2.2 9 rfl (by decide)

/-- Witness for C10: a string entry in a relation array is skipped with the
outcome unchanged, and a bare string input resolves to null. -/
theorem spec_C10_witness :
    updateOrCreateRelation 1 envA userA relTag
        (some (.vArr [.vNum 1, .vStr "zzz", .vNum 2])) stEmpty =
      updateOrCreateRelation 1 envA userA relTag
        (some (.vArr [.vNum 1, .vNum 2])) stEmpty ∧
    updateOrCreateRelation 1 envA userA relTag (some (.vStr "zzz")) stEmpty =
      (.ok .vNull, stEmpty) := by
  have h := spec_C10 0 envA userA relTag stEmpty (.vStr "zzz")
    (fun n h => nomatch h) rfl (by decide) (by decide)
  exact ⟨h.1 rfl [.vNum 1] [.vNum 2], h.2.2.1 rfl (fun h2 => nomatch h2) rfl⟩

theorem coerceRelField_null (d : Value) (name : String)
    (hobj : isObjectSafe d = true)
    (h : objGet d name = none ∨ objGet d name = some (.vStr "") ∨
         objGet d name = some (.vStr "null") ∨
         (∃ c, objGet d name = some (.vStr c) ∧ jsonParse c = none)) :
    objGet (coerceRelField d name) name = some .vNull := by
  unfold coerceRelField
  rcases h with h | h | h | ⟨c, hc, hj⟩
  · simp only [h]
    exact objGet_objSet_self d name .vNull hobj
  · simp only [h]
    rw [if_neg (by decide)]
    exact objGet_objSet_self d name .vNull hobj
  · simp only [h]
    rw [if_neg (by decide)]
    exact objGet_objSet_self d name .vNull hobj
  · simp only [hc]
    by_cases hcond : (truthy (.vStr c) && !beqV (.vStr c) (.vStr "null") &&
        !beqV (.vStr c) (.vStr "undefined")) = true
    · rw [if_pos hcond]
      rw [show jsToString (.vStr c) = c from rfl, hj]
      exact objGet_objSet_self d name .vNull hobj
    · rw [if_neg hcond]
      exact objGet_objSet_self d name .vNull hobj

theorem coerceRelField_stable (d : Value) (name : String)
    (hobj : isObjectSafe d = true) (h : objGet d name = some .vNull) :
    objGet (coerceRelField d name) name = some .vNull := by
  unfold coerceRelField
  simp only [h]
  rw [if_neg (by decide)]
  exact objGet_objSet_self d name .vNull hobj

theorem coerceRelField_objSafe (d : Value) (n' : String) :
    isObjectSafe (coerceRelField d n') = isObjectSafe d := by
  unfold coerceRelField
  split
  · split
    · split
      · exact isObjectSafe_objSet d n' _
      · exact isObjectSafe_objSet d n' _
    · exact isObjectSafe_objSet d n' _
  · exact isObjectSafe_objSet d n' _

theorem coerceRelField_preserve (d : Value) (n' name : String) (hne : name ≠ n') :
    objGet (coerceRelField d n') name = objGet d name := by
  unfold coerceRelField
  split
  · split
    · split
      · exact objGet_objSet_ne d n' name _ hne
      · exact objGet_objSet_ne d n' name _ hne
    · exact objGet_objSet_ne d n' name _ hne
  · exact objGet_objSet_ne d n' name _ hne

theorem coerceDateField_preserve (d : Value) (n' name : String) (hne : name ≠ n') :
    objGet (coerceDateField d n') name = objGet d name ∧
    isObjectSafe (coerceDateField d n') = isObjectSafe d := by
  unfold coerceDateField
  split
  · split
    · split
      · exact ⟨objGet_objSet_ne d n' name _ hne, isObjectSafe_objSet d n' _⟩
      · exact ⟨rfl, rfl⟩
    · split
      · exact ⟨objGet_objSet_ne d n' name _ hne, isObjectSafe_objSet d n' _⟩
      · exact ⟨rfl, rfl⟩
  · exact ⟨rfl, rfl⟩

theorem coerceBoolField_preserve (d : Value) (n' name : String) (hne : name ≠ n') :
    objGet (coerceBoolField d n') name = objGet d name ∧
    isObjectSafe (coerceBoolField d n') = isObjectSafe d := by
  unfold coerceBoolField
  split
  · split
    · exact ⟨objGet_objSet_ne d n' name _ hne, isObjectSafe_objSet d n' _⟩
    · split
      · exact ⟨objGet_objSet_ne d n' name _ hne, isObjectSafe_objSet d n' _⟩
      · split
        · exact ⟨objGet_objSet_ne d n' name _ hne, isObjectSafe_objSet d n' _⟩
        · exact ⟨rfl, rfl⟩
  · exact ⟨rfl, rfl⟩

theorem coerceNumField_preserve (d : Value) (n' name : String) (hne : name ≠ n') :
    objGet (coerceNumField d n') name = objGet d name ∧
    isObjectSafe (coerceNumField d n') = isObjectSafe d := by
  unfold coerceNumField
  split
  · split
    · split
      · exact ⟨objGet_objSet_ne d n' name _ hne, isObjectSafe_objSet d n' _⟩
      · exact ⟨objGet_objSet_ne d n' name _ hne, isObjectSafe_objSet d n' _⟩
    · exact ⟨objGet_objSet_ne d n' name _ hne, isObjectSafe_objSet d n' _⟩
  · exact ⟨rfl, rfl⟩

theorem foldl_coerce_preserve (f : Value → String → Value)
    (hpres : ∀ d n' name, name ≠ n' →
      objGet (f d n') name = objGet d name ∧
      isObjectSafe (f d n') = isObjectSafe d) :
    ∀ (L : List String) (d : Value) (name : String), name ∉ L →
      objGet (L.foldl f d) name = objGet d name ∧
      isObjectSafe (L.foldl f d) = isObjectSafe d := by
  intro L
  induction L with
  | nil => intro d name _; exact ⟨rfl, rfl⟩
  | cons n' L' ih =>
    intro d name hnin
    have hne : name ≠ n' := fun h => hnin (h ▸ List.mem_cons_self n' L')
    have h1 := hpres d n' name hne
    have h2 := ih (f d n') name (fun h => hnin (List.mem_cons_of_mem n' h))
    exact ⟨h2.1.trans h1.1, h2.2.trans h1.2⟩

theorem foldl_relField_stable :
    ∀ (L : List String) (d : Value) (name : String),
      objGet d name = some .vNull → isObjectSafe d = true →
      objGet (L.foldl coerceRelField d) name = some .vNull ∧
      isObjectSafe (L.foldl coerceRelField d) = true := by
  intro L
  induction L with
  | nil => intro d name h0 hobj; exact ⟨h0, hobj⟩
  | cons m L' ih =>
    intro d name h0 hobj
    have hobj1 : isObjectSafe (coerceRelField d m) = true :=
      (coerceRelField_objSafe d m).trans hobj
    by_cases hm : name = m
    · subst hm
      exact ih (coerceRelField d name) name
        (coerceRelField_stable d name hobj h0) hobj1
    · exact ih (coerceRelField d m) name
        ((coerceRelField_preserve d m name hm).trans h0) hobj1

theorem foldl_relField_mem :
    ∀ (L : List String) (d : Value) (name : String), name ∈ L →
      isObjectSafe d = true →
      (objGet d name = none ∨ objGet d name = some (.vStr "") ∨
       objGet d name = some (.vStr "null") ∨
       (∃ c, objGet d name = some (.vStr c) ∧ jsonParse c = none)) →
      objGet (L.foldl coerceRelField d) name = some .vNull ∧
      isObjectSafe (L.foldl coerceRelField d) = true := by
  intro L
  induction L with
  | nil => intro d name h; cases h
  | cons m L' ih =>
    intro d name hmem hobj hc
    have hobj1 : isObjectSafe (coerceRelField d m) = true :=
      (coerceRelField_objSafe d m).trans hobj
    by_cases hm : name = m
    · subst hm
      exact foldl_relField_stable L' (coerceRelField d name) name
        (coerceRelField_null d name hobj hc) hobj1
    · have hmem' : name ∈ L' := by
        rcases List.mem_cons.mp hmem with h | h
        · exact absurd h hm
        · exact h
      have hpres := coerceRelField_preserve d m name hm
      refine ih (coerceRelField d m) name hmem' hobj1 ?_
      rcases hc with h | h | h | ⟨c, h, hj⟩
      · exact Or.inl (hpres.trans h)
      · exact Or.inr (Or.inl (hpres.trans h))
      · exact Or.inr (Or.inr (Or.inl (hpres.trans h)))
      · exact Or.inr (Or.inr (Or.inr ⟨c, hpres.trans h, hj⟩))

/-- C7: the delimited-text parser never raises — it returns a row array for
every input string — and for every relation-classified attribute name (not
also classified as a date, boolean or number field and distinct from the
publish-state field) a row cell that is absent, empty, the literal null
text, or malformed JSON is coerced to null. -/
theorem spec_C7 (env : Env) (slug : String) (opt : Option Bool) (name : String)
    (hrel : name ∈ (getModelAttributes env slug relationTypeTags).map (·.name))
    (hd : name ∉ (getModelAttributes env slug ["datetime", "date", "time"]).map (·.name))
    (hb : name ∉ (getModelAttributes env slug ["boolean"]).map (·.name))
    (hn : name ∉ (getModelAttributes env slug
      ["integer", "biginteger", "float", "decimal"]).map (·.name))
    (hpub : name ≠ "publishedAt") :
    (∀ s : String, ∃ rows, parseCsv env (.vStr s) slug opt = .ok (.vArr rows)) ∧
    (∀ (d : Value) (hasDnP drafts : Bool), isObjectSafe d = true →
      (objGet d name = none ∨ objGet d name = some (.vStr "") ∨
       objGet d name = some (.vStr "null") ∨
       (∃ c, objGet d name = some (.vStr c) ∧ jsonParse c = none)) →
      objGet (coerceRow
        ((getModelAttributes env slug relationTypeTags).map (·.name))
        ((getModelAttributes env slug ["datetime", "date", "time"]).map (·.name))
        ((getModelAttributes env slug ["boolean"]).map (·.name))
        ((getModelAttributes env slug
          ["integer", "biginteger", "float", "decimal"]).map (·.name))
        hasDnP drafts d) name = some .vNull) := by
  constructor
  · intro s
    exact ⟨_, rfl⟩
  · intro d hasDnP drafts hobj hc
    unfold coerceRow
    obtain ⟨h1, ho1⟩ := foldl_relField_mem
      ((getModelAttributes env slug relationTypeTags).map (·.name)) d name
      hrel hobj hc
    obtain ⟨h2, ho2⟩ := foldl_coerce_preserve coerceDateField
      coerceDateField_preserve
      ((getModelAttributes env slug ["datetime", "date", "time"]).map (·.name))
      _ name hd
    obtain ⟨h3, ho3⟩ := foldl_coerce_preserve coerceBoolField
      coerceBoolField_preserve
      ((getModelAttributes env slug ["boolean"]).map (·.name)) _ name hb
    obtain ⟨h4, ho4⟩ := foldl_coerce_preserve coerceNumField
      coerceNumField_preserve
      ((getModelAttributes env slug
        ["integer", "biginteger", "float", "decimal"]).map (·.name)) _ name hn
    have hval := h4.trans (h3.trans (h2.trans h1))
    set X := List.foldl coerceNumField
      (List.foldl coerceBoolField
        (List.foldl coerceDateField
          (List.foldl coerceRelField d
            ((getModelAttributes env slug relationTypeTags).map (·.name)))
          ((getModelAttributes env slug ["datetime", "date", "time"]).map (·.name)))
        ((getModelAttributes env slug ["boolean"]).map (·.name)))
      ((getModelAttributes env slug
        ["integer", "biginteger", "float", "decimal"]).map (·.name)) with hXdef
    by_cases hdp : (hasDnP && drafts) = true
    · rw [if_pos hdp]
      exact (objGet_objSet_ne X "publishedAt" name .vNull hpub).trans hval
    · rw [if_neg hdp]
      by_cases hdel : (!hasDnP && (objGet X "publishedAt").isSome) = true
      · rw [if_pos hdel]
        exact (objGet_objDelete_ne X "publishedAt" name hpub).trans hval
      · rw [if_neg hdel]
        exact hval

/-- Witness for C7: with the post model's relation attribute tag, a
malformed-JSON cell is coerced to null and the parser succeeds. -/
theorem spec_C7_witness :
    jsonParse "oops" = none ∧
    (∃ rows, parseCsv envA (.vStr "name,tag\nfoo,oops") "api::post.post" none =
      .ok (.vArr rows)) ∧
    objGet (coerceRow
      ((getModelAttributes envA "api::post.post" relationTypeTags).map (·.name))
      ((getModelAttributes envA "api::post.post" ["datetime", "date", "time"]).map (·.name))
      ((getModelAttributes envA "api::post.post" ["boolean"]).map (·.name))
      ((getModelAttributes envA "api::post.post"
        ["integer", "biginteger", "float", "decimal"]).map (·.name))
      false true (.vObj [("name", .vStr "foo"), ("tag", .vStr "oops")]))
      "tag" = some .vNull := by
  have h := spec_C7 envA "api::post.post" none "tag"
    (by decide) (by decide) (by decide) (by decide) (by decide)
  exact ⟨rfl, h.1 "name,tag\nfoo,oops",
    h.2 (.vObj [("name", .vStr "foo"), ("tag", .vStr "oops")]) false true rfl
      (Or.inr (Or.inr (Or.inr ⟨"oops", rfl, rfl⟩)))⟩

theorem dbCreate_writes (st : Store) (slug : String) (data : Value) :
    ∀ w ∈ (dbCreate st slug data).2.writes,
      w ∈ st.writes ∨ (isObjectSafe data = true ∧ w = (slug, data)) := by
  intro w hw
  by_cases h1 : isObjectSafe data = true
  · by_cases h2 : uniqueViolation st slug (tableOf st slug) data = true
    · simp [dbCreate, h1, h2] at hw
      exact Or.inl hw
    · have h2' : uniqueViolation st slug (tableOf st slug) data = false := by
        simpa using h2
      simp [dbCreate, h1, h2'] at hw
      rcases hw with h | h
      · exact Or.inr ⟨h1, by rw [h]⟩
      · exact Or.inl h
  · have h1' : isObjectSafe data = false := by simpa using h1
    simp [dbCreate, h1'] at hw
    exact Or.inl hw

theorem dbUpdate_writes (st : Store) (slug : String) (idv data : Value) :
    ∀ w ∈ (dbUpdate st slug idv data).2.writes,
      w ∈ st.writes ∨ (isObjectSafe data = true ∧ w = (slug, data)) := by
  intro w hw
  by_cases h1 : isObjectSafe data = true
  · rcases hup : updateFirst (hasId idv)
        (fun e => objSet (objMerge e data) "id" idv) (tableOf st slug)
        with _ | ⟨m, tbl'⟩
    · simp [dbUpdate, h1, hup] at hw
      exact Or.inl hw
    · simp [dbUpdate, h1, hup] at hw
      rcases hw with h | h
      · exact Or.inr ⟨h1, by rw [h]⟩
      · exact Or.inl h
  · have h1' : isObjectSafe data = false := by simpa using h1
    simp [dbUpdate, h1'] at hw
    exact Or.inl hw

theorem strippedId_pub (data : Value) (idField : String) :
    objGet (if idField ≠ "id" then objDelete data "id" else data) "publishedAt" =
      objGet data "publishedAt" ∧
    isObjectSafe (if idField ≠ "id" then objDelete data "id" else data) =
      isObjectSafe data := by
  split
  · exact ⟨objGet_objDelete_ne data "id" "publishedAt" (by decide),
      isObjectSafe_objDelete data "id"⟩
  · exact ⟨rfl, rfl⟩

theorem uocCT_writes (slug : String) (data : Value) (idField : String) (st : Store) :
    ∀ w ∈ (updateOrCreateCollectionType slug data idField st).2.writes,
      w ∈ st.writes ∨ (isObjectSafe data = true ∧
        objGet w.2 "publishedAt" = objGet data "publishedAt") := by
  intro w hw
  simp only [updateOrCreateCollectionType] at hw
  set d3 := if idField ≠ "id" then objDelete data "id" else data with hd3
  have hp3 : objGet d3 "publishedAt" = objGet data "publishedAt" :=
    (strippedId_pub data idField).1
  have hs3 : isObjectSafe d3 = isObjectSafe data :=
    (strippedId_pub data idField).2
  have hconv : ∀ w' : String × Value,
      (isObjectSafe d3 = true ∧ w' = (slug, d3)) →
      isObjectSafe data = true ∧
        objGet w'.2 "publishedAt" = objGet data "publishedAt" := by
    intro w' ⟨ho, hww⟩
    exact ⟨hs3 ▸ ho, by rw [hww]; exact hp3⟩
  repeat' split at hw
  all_goals
    first
    | exact (dbCreate_writes st slug d3 w hw).imp id (hconv w)
    | exact (dbUpdate_writes st slug _ d3 w hw).imp id (hconv w)

theorem uocST_writes (slug : String) (data : Value) (idField : String) (st : Store) :
    ∀ w ∈ (updateOrCreateSingleType slug data idField st).2.writes,
      w ∈ st.writes ∨ (isObjectSafe data = true ∧
        objGet w.2 "publishedAt" = objGet data "publishedAt") := by
  intro w hw
  simp only [updateOrCreateSingleType] at hw
  set d3 := objDelete data "id" with hd3
  have hconv : ∀ w' : String × Value,
      (isObjectSafe d3 = true ∧ w' = (slug, d3)) →
      isObjectSafe data = true ∧
        objGet w'.2 "publishedAt" = objGet data "publishedAt" := by
    intro w' ⟨ho, hww⟩
    refine ⟨(isObjectSafe_objDelete data "id").symm.trans ho, ?_⟩
    rw [hww]
    exact objGet_objDelete_ne data "id" "publishedAt" (by decide)
  repeat' split at hw
  all_goals
    first
    | exact (dbCreate_writes st slug d3 w hw).imp id (hconv w)
    | exact (dbUpdate_writes st slug _ d3 w hw).imp id (hconv w)

theorem uoc_norel_writes (fuel : Nat) (env : Env) (user : User) (slug : String)
    (data : Value) (idField : String) (st : Store)
    (hrel : getModelAttributes env slug relationTypeTags = []) :
    ∀ w ∈ (updateOrCreate fuel env user slug data idField st).2.writes,
      w ∈ st.writes ∨ (isObjectSafe data = true ∧
        objGet w.2 "publishedAt" = objGet data "publishedAt") := by
  cases fuel with
  | zero =>
    intro w hw
    simp [updateOrCreate] at hw
    exact Or.inl hw
  | succ g =>
    intro w hw
    cases hm : getModel env slug with
    | none =>
      simp [updateOrCreate, hrel, resolveAttributes, hm] at hw
      exact Or.inl hw
    | some m =>
      by_cases hk : (m.kind == "singleType") = true
      · have hred : updateOrCreate (g+1) env user slug data idField st =
            updateOrCreateSingleType slug data idField st := by
          simp [updateOrCreate, hrel, resolveAttributes, hm, hk]
        rw [hred] at hw
        exact uocST_writes slug data idField st w hw
      · have hk' : (m.kind == "singleType") = false := by simpa using hk
        have hred : updateOrCreate (g+1) env user slug data idField st =
            updateOrCreateCollectionType slug data idField st := by
          simp [updateOrCreate, hrel, resolveAttributes, hm, hk']
        rw [hred] at hw
        exact uocCT_writes slug data idField st w hw

theorem preprocessRecord_true (d : Value) : preprocessRecord true d = d := by
  simp [preprocessRecord]

theorem preprocessRecord_false_pub (d : Value) :
    objGet (preprocessRecord false d) "publishedAt" = none := by
  unfold preprocessRecord
  by_cases h : (objGet d "publishedAt").isSome = true
  · rw [if_pos (by simp [h])]
    exact objGet_objDelete_self d "publishedAt"
  · rw [if_neg (by simp [h])]
    exact Option.not_isSome_iff_eq_none.mp (by simpa using h)

theorem importOtherSlugLoop_writes (fuel : Nat) (env : Env) (user : User)
    (slug idField : String) (hasDnP : Bool) (pv : Option Value)
    (hrel : getModelAttributes env slug relationTypeTags = []) :
    ∀ (data : List Value) (st : Store),
      (∀ d ∈ data, objGet (preprocessRecord hasDnP d) "publishedAt" = pv ∨
        isObjectSafe (preprocessRecord hasDnP d) = false) →
      ∀ w ∈ (importOtherSlugLoop fuel env user slug idField hasDnP data st).2.writes,
        w ∈ st.writes ∨ objGet w.2 "publishedAt" = pv := by
  intro data
  induction data with
  | nil =>
    intro st hP w hw
    simp [importOtherSlugLoop] at hw
    exact Or.inl hw
  | cons d rest ih =>
    intro st hP w hw
    rcases huoc : updateOrCreate fuel env user slug (preprocessRecord hasDnP d)
        idField st with ⟨r, st1⟩
    have hw1 : ∀ w' ∈ st1.writes,
        w' ∈ st.writes ∨ objGet w'.2 "publishedAt" = pv := by
      intro w' hw'
      have hmem : w' ∈ (updateOrCreate fuel env user slug
          (preprocessRecord hasDnP d) idField st).2.writes := by
        rw [huoc]; exact hw'
      rcases uoc_norel_writes fuel env user slug (preprocessRecord hasDnP d)
          idField st hrel w' hmem with h | ⟨hobj, heq⟩
      · exact Or.inl h
      · rcases hP d (List.mem_cons_self d rest) with hp | hp
        · exact Or.inr (heq.trans hp)
        · rw [hp] at hobj; cases hobj
    have hPr : ∀ d2 ∈ rest, objGet (preprocessRecord hasDnP d2) "publishedAt" = pv ∨
        isObjectSafe (preprocessRecord hasDnP d2) = false :=
      fun d2 hd2 => hP d2 (List.mem_cons_of_mem d hd2)
    rcases hloop : importOtherSlugLoop fuel env user slug idField hasDnP rest st1
      with ⟨ps, st2⟩
    have hrec := ih st1 hPr
    rw [hloop] at hrec
    cases r with
    | ok v =>
      simp [importOtherSlugLoop, huoc, hloop] at hw
      rcases hrec w hw with h | h
      · exact hw1 w h
      · exact Or.inr h
    | error e =>
      simp [importOtherSlugLoop, huoc, hloop] at hw
      rcases hrec w hw with h | h
      · exact hw1 w h
      · exact Or.inr h

theorem coerceDateField_objSafe (d : Value) (n' : String) :
    isObjectSafe (coerceDateField d n') = isObjectSafe d := by
  unfold coerceDateField
  repeat' split
  all_goals first | exact isObjectSafe_objSet d n' _ | rfl

theorem coerceBoolField_objSafe (d : Value) (n' : String) :
    isObjectSafe (coerceBoolField d n') = isObjectSafe d := by
  unfold coerceBoolField
  repeat' split
  all_goals first | exact isObjectSafe_objSet d n' _ | rfl

theorem coerceNumField_objSafe (d : Value) (n' : String) :
    isObjectSafe (coerceNumField d n') = isObjectSafe d := by
  unfold coerceNumField
  repeat' split
  all_goals first | exact isObjectSafe_objSet d n' _ | rfl

theorem foldl_coerce_objSafe (f : Value → String → Value)
    (hf : ∀ d n, isObjectSafe (f d n) = isObjectSafe d) :
    ∀ (names : List String) (d : Value),
      isObjectSafe (names.foldl f d) = isObjectSafe d := by
  intro names
  induction names with
  | nil => intro d; rfl
  | cons n rest ih =>
    intro d
    rw [List.foldl_cons, ih (f d n), hf d n]

theorem coerceRow_drafts (relN dtN bN nN : List String) (datum : Value)
    (hobj : isObjectSafe datum = true) :
    objGet (coerceRow relN dtN bN nN true true datum) "publishedAt" =
      some .vNull := by
  simp only [coerceRow]
  rw [if_pos (show (true && true) = true from rfl)]
  apply objGet_objSet_self
  rw [foldl_coerce_objSafe coerceNumField coerceNumField_objSafe,
      foldl_coerce_objSafe coerceBoolField coerceBoolField_objSafe,
      foldl_coerce_objSafe coerceDateField coerceDateField_objSafe,
      foldl_coerce_objSafe coerceRelField coerceRelField_objSafe]
  exact hobj

theorem csvDecode_objSafe (s : String) :
    ∀ d ∈ csvDecode s, isObjectSafe d = true := by
  intro d hd
  unfold csvDecode at hd
  split at hd
  · cases hd
  · simp only [List.mem_map] at hd
    obtain ⟨row, _, hrow⟩ := hd
    rw [← hrow]
    rfl

theorem parseCsv_drafts (env : Env) (dataRaw : Value) (slug : String) (v : Value)
    (m : Model) (hm : getModel env slug = some m) (hdp : m.draftAndPublish = true)
    (hok : parseCsv env dataRaw slug (some true) = .ok v) :
    ∀ d ∈ toArray v, objGet d "publishedAt" = some .vNull := by
  intro d hd
  cases dataRaw with
  | vStr s =>
    simp only [parseCsv, hm, hdp, Option.getD_some] at hok
    injection hok with hok
    rw [← hok] at hd
    simp only [toArray, List.mem_map] at hd
    obtain ⟨row, hrow, hdef⟩ := hd
    rw [← hdef]
    exact coerceRow_drafts _ _ _ _ row (csvDecode_objSafe s row hrow)
  | vNull => exact absurd hok (by simp [parseCsv])
  | vBool b => exact absurd hok (by simp [parseCsv])
  | vNum n => exact absurd hok (by simp [parseCsv])
  | vArr xs => exact absurd hok (by simp [parseCsv])
  | vObj fs => exact absurd hok (by simp [parseCsv])

theorem spreadSetField_get_self (it : Value) (k : String) (v : Value) :
    objGet (spreadSetField it k v) k = some v := by
  cases it <;>
    simp [spreadSetField, objGet, lookup_setAssoc_self, List.lookup_cons]

theorem parseJson_drafts (env : Env) (dataRaw : Value) (slug : String) (v : Value)
    (m : Model) (hm : getModel env slug = some m) (hdp : m.draftAndPublish = true)
    (hok : parseJson env dataRaw slug (some true) = .ok v) :
    ∀ d ∈ toArray v, objGet d "publishedAt" = some .vNull ∨ isObjectSafe d = false := by
  intro d hd
  rcases hjp : jsonParse (jsToString dataRaw) with _ | data
  · rw [parseJson, hjp] at hok
    exact absurd hok (by simp)
  · cases data with
    | vArr xs =>
      simp [parseJson, hjp, hm, hdp] at hok
      rw [← hok] at hd
      simp only [toArray, List.mem_map] at hd
      obtain ⟨it, _, hdef⟩ := hd
      rw [← hdef]
      exact Or.inl (spreadSetField_get_self it "publishedAt" .vNull)
    | vObj fs =>
      simp [parseJson, hjp, hm, hdp] at hok
      rw [← hok] at hd
      simp only [objSet, toArray, List.mem_singleton] at hd
      rw [hd]
      exact Or.inl (by simp [objGet, lookup_setAssoc_self])
    | vNull =>
      rw [parseJson, hjp] at hok
      simp [hm, hdp] at hok
    | vBool b =>
      simp [parseJson, hjp, hm, hdp] at hok
      rw [← hok] at hd
      simp only [toArray, List.mem_singleton] at hd
      rw [hd]
      exact Or.inr rfl
    | vNum n =>
      simp [parseJson, hjp, hm, hdp] at hok
      rw [← hok] at hd
      simp only [toArray, List.mem_singleton] at hd
      rw [hd]
      exact Or.inr rfl
    | vStr s =>
      simp [parseJson, hjp, hm, hdp] at hok
      rw [← hok] at hd
      simp only [toArray, List.mem_singleton] at hd
      rw [hd]
      exact Or.inr rfl

theorem lookup_pub_skip (l1 l2 : List (String × Value))
    (h : ∀ p ∈ l1, p.1 ≠ "publishedAt") :
    (l1 ++ l2).lookup "publishedAt" = l2.lookup "publishedAt" := by
  induction l1 with
  | nil => rfl
  | cons p rest ih =>
    obtain ⟨k, v⟩ := p
    have hk : ("publishedAt" == k) = false :=
      beq_eq_false_iff_ne.mpr (Ne.symm (h (k, v) (List.mem_cons_self _ _)))
    simp only [List.cons_append, List.lookup, hk]
    exact ih (fun q hq => h q (List.mem_cons_of_mem _ hq))

theorem pgTransform_drafts (item t : Value)
    (hok : pgTransform true true item = .ok t) :
    objGet t "publishedAt" = some .vNull := by
  cases item with
  | vNull => exact absurd hok (by simp [pgTransform])
  | vBool b =>
    simp only [pgTransform] at hok
    injection hok with h
    rw [← h]
    rfl
  | vNum n =>
    simp only [pgTransform] at hok
    injection hok with h
    rw [← h]
    rfl
  | vStr s =>
    simp only [pgTransform] at hok
    injection hok with h
    rw [← h]
    rfl
  | vArr xs =>
    simp only [pgTransform] at hok
    injection hok with h
    rw [← h]
    rfl
  | vObj fs =>
    simp only [pgTransform, objGet] at hok
    injection hok with h
    rw [← h]
    simp only [objGet]
    rw [lookup_pub_skip]
    · rfl
    · intro p hp
      rcases List.mem_append.mp hp with hp | hp
      · rcases List.mem_append.mp hp with hp | hp
        · split at hp
          · simp only [List.mem_singleton] at hp
            subst hp
            intro hc
            simp at hc
          · cases hp
        · split at hp
          · simp only [List.mem_singleton] at hp
            subst hp
            intro hc
            simp at hc
          · simp only [List.mem_singleton] at hp
            subst hp
            intro hc
            simp at hc
          · cases hp
      · simp only [List.mem_singleton] at hp
        subst hp
        intro hc
        simp at hc

theorem pgTransformList_drafts :
    ∀ (items ts : List Value),
      pgTransformList true true items = .ok ts →
      ∀ t ∈ ts, objGet t "publishedAt" = some .vNull := by
  intro items
  induction items with
  | nil =>
    intro ts hok t ht
    simp only [pgTransformList] at hok
    injection hok with h
    rw [← h] at ht
    cases ht
  | cons x rest ih =>
    intro ts hok t ht
    simp only [pgTransformList] at hok
    cases hx : pgTransform true true x with
    | error e =>
      simp only [hx] at hok
      exact absurd hok (by simp)
    | ok tx =>
      simp only [hx] at hok
      cases hrest : pgTransformList true true rest with
      | error e =>
        simp only [hrest] at hok
        exact absurd hok (by simp)
      | ok ts' =>
        simp only [hrest] at hok
        injection hok with h
        rw [← h] at ht
        rcases List.mem_cons.mp ht with hteq | hmem
        · rw [hteq]
          exact pgTransform_drafts x tx hx
        · exact ih ts' hrest t hmem

theorem parsePostgresJson_drafts (env : Env) (dataRaw : Value) (slug : String)
    (v : Value) (m : Model)
    (hm : getModel env slug = some m) (hdp : m.draftAndPublish = true)
    (hok : parsePostgresJson env dataRaw slug (some true) = .ok v) :
    ∀ d ∈ toArray v, objGet d "publishedAt" = some .vNull := by
  intro d hd
  rcases hjp : jsonParse (jsToString dataRaw) with _ | data
  · rw [parsePostgresJson, hjp] at hok
    exact absurd hok (by simp)
  · simp only [parsePostgresJson, hjp, hm, hdp, Option.getD_some] at hok
    cases hts : pgTransformList true true
        (if isArraySafe data = true then toArray data else [data]) with
    | error e =>
      simp only [hts] at hok
      exact absurd hok (by simp)
    | ok ts =>
      simp only [hts] at hok
      injection hok with h
      rw [← h] at hd
      simp only [toArray] at hd
      exact pgTransformList_drafts _ ts hts d hd

theorem parseInputData_drafts (env : Env) (format : String) (dataRaw : Value)
    (slug : String) (v : Value) (m : Model)
    (hm : getModel env slug = some m) (hdp : m.draftAndPublish = true)
    (hfmt : format = "csv" ∨ format = "json" ∨ format = "postgres")
    (hok : parseInputData env format dataRaw slug (some true) = .ok v) :
    ∀ d ∈ toArray v, objGet d "publishedAt" = some .vNull ∨ isObjectSafe d = false := by
  intro d hd
  rcases hfmt with h | h | h <;> subst h
  · simp [parseInputData] at hok
    exact Or.inl (parseCsv_drafts env dataRaw slug v m hm hdp hok d hd)
  · simp [parseInputData] at hok
    exact parseJson_drafts env dataRaw slug v m hm hdp hok d hd
  · simp [parseInputData] at hok
    exact Or.inl (parsePostgresJson_drafts env dataRaw slug v m hm hdp hok d hd)

/-- C3 (amended): for a draft/publish model with no relation-classified
attributes, an import with importAsDrafts = true through any parsed input
format (csv, json or postgres — but not the parser-bypassing jso format)
passes only records whose publish-state field is null to the store: every
write logged by the call either predates it or carries publishedAt = null. -/
theorem spec_C3 (fuel : Nat) (env : Env) (dataRaw : Value) (slug format : String)
    (user : User) (idField : String) (st : Store) (m : Model)
    (hm : getModel env slug = some m) (hdp : m.draftAndPublish = true)
    (hrel : getModelAttributes env slug relationTypeTags = [])
    (hfmt : format = "csv" ∨ format = "json" ∨ format = "postgres")
    (hmedia : (slug == mediaSlug) = false) :
    ∀ w ∈ (importData fuel env dataRaw slug format user idField (some true) st).2.writes,
      w ∈ st.writes ∨ objGet w.2 "publishedAt" = some .vNull := by
  intro w hw
  have hjso : (format == "jso") = false := by
    rcases hfmt with h | h | h <;> subst h <;> decide
  rcases hP : parseInputData env format dataRaw slug (some true) with e | data0
  · simp [importData, hm, hdp, hjso, hP] at hw
    exact Or.inl hw
  · have hprop : ∀ dd ∈ toArray data0,
        objGet (preprocessRecord true dd) "publishedAt" = some .vNull ∨
          isObjectSafe (preprocessRecord true dd) = false := by
      intro dd hdd
      rw [preprocessRecord_true]
      exact parseInputData_drafts env format dataRaw slug data0 m hm hdp hfmt hP dd hdd
    rcases hLoop : importOtherSlugLoop fuel env user slug idField true (toArray data0) st
      with ⟨ps, st2⟩
    have hmain := importOtherSlugLoop_writes fuel env user slug idField true (some .vNull)
      hrel (toArray data0) st hprop
    rw [hLoop] at hmain
    simp [importData, hm, hdp, hjso, hmedia, hP, importOtherSlug, hLoop] at hw
    exact hmain w hw

/-- Witness for C3: a draft-mode json import of a published article record
logs the record with its publish-state forced to null, and that write
satisfies the null-publish-state property. -/
theorem spec_C3_witness :
    getModel envA "api::article.article" = some articleModel ∧
    articleModel.draftAndPublish = true ∧
    (("api::article.article",
        Value.vObj [("name", .vStr "a"), ("publishedAt", Value.vNull)]) ∈
        stEmpty.writes ∨
      objGet (Value.vObj [("name", .vStr "a"), ("publishedAt", Value.vNull)])
        "publishedAt" = some .vNull) := by
  refine ⟨rfl, rfl, ?_⟩
  have h2 : updateOrCreate 1 envA userA "api::article.article"
      (.vObj [("name", .vStr "a"), ("publishedAt", Value.vNull)]) "name" stEmpty =
      (.ok (.vObj [("name", .vStr "a"), ("publishedAt", Value.vNull),
          ("id", .vNum 1)]),
        { tables := [("api::article.article",
            [.vObj [("name", .vStr "a"), ("publishedAt", Value.vNull),
              ("id", .vNum 1)]])],
          nextId := 2, uniques := [],
          writes := [("api::article.article",
            .vObj [("name", .vStr "a"), ("publishedAt", Value.vNull)])] }) :=
    (updateOrCreate_eval 0 envA userA "api::article.article" _ "name" stEmpty
      articleModel rfl rfl rfl).trans rfl
  have hpre : preprocessRecord true
      (.vObj [("name", .vStr "a"), ("publishedAt", Value.vNull)]) =
      .vObj [("name", .vStr "a"), ("publishedAt", Value.vNull)] := rfl
  have h3 : importOtherSlugLoop 1 envA userA "api::article.article" "name" true
      [.vObj [("name", .vStr "a"), ("publishedAt", Value.vNull)]] stEmpty =
      ([{ success := true }],
        { tables := [("api::article.article",
            [.vObj [("name", .vStr "a"), ("publishedAt", Value.vNull),
              ("id", .vNum 1)]])],
          nextId := 2, uniques := [],
          writes := [("api::article.article",
            .vObj [("name", .vStr "a"), ("publishedAt", Value.vNull)])] }) := by
    simp only [importOtherSlugLoop, hpre, h2]
  have hP : parseInputData envA "json"
      (.vStr "[\x7b\"name\":\"a\",\"publishedAt\":\"2020-01-01\"\x7d]")
      "api::article.article" (some true) =
      .ok (.vArr [.vObj [("name", .vStr "a"), ("publishedAt", Value.vNull)]]) := rfl
  have hmem : ("api::article.article",
      Value.vObj [("name", .vStr "a"), ("publishedAt", Value.vNull)]) ∈
      (importData 1 envA
        (.vStr "[\x7b\"name\":\"a\",\"publishedAt\":\"2020-01-01\"\x7d]")
        "api::article.article" "json" userA "name" (some true) stEmpty).2.writes := by
    simp [importData, importOtherSlug, toArray, h3, mediaSlug, hP,
      show getModel envA "api::article.article" = some articleModel from rfl,
      articleModel]
  exact spec_C3 1 envA
    (.vStr "[\x7b\"name\":\"a\",\"publishedAt\":\"2020-01-01\"\x7d]")
    "api::article.article" "json" userA "name" stEmpty articleModel
    rfl rfl rfl (Or.inr (Or.inl rfl)) rfl _ hmem

/-- Counterexample for C3: the pre-decoded jso format bypasses the parsers,
so a draft-mode import of a published record into a draft/publish model
passes the source publish timestamp to the store unchanged. -/
theorem spec_C3_cex :
    articleModel.draftAndPublish = true ∧
    (importData 1 envA (.vObj [("name", .vStr "a"), ("publishedAt", .vStr "2020-01-01")])
        "api::article.article" "jso" userA "name" (some true) stEmpty).2.writes =
      [("api::article.article",
        .vObj [("name", .vStr "a"), ("publishedAt", .vStr "2020-01-01")])] := by
  refine ⟨rfl, ?_⟩
  have h2 : updateOrCreate 1 envA userA "api::article.article"
      (.vObj [("name", .vStr "a"), ("publishedAt", .vStr "2020-01-01")]) "name" stEmpty =
      (.ok (.vObj [("name", .vStr "a"), ("publishedAt", .vStr "2020-01-01"),
          ("id", .vNum 1)]),
        { tables := [("api::article.article",
            [.vObj [("name", .vStr "a"), ("publishedAt", .vStr "2020-01-01"),
              ("id", .vNum 1)]])],
          nextId := 2, uniques := [],
          writes := [("api::article.article",
            .vObj [("name", .vStr "a"), ("publishedAt", .vStr "2020-01-01")])] }) :=
    (updateOrCreate_eval 0 envA userA "api::article.article" _ "name" stEmpty
      articleModel rfl rfl rfl).trans rfl
  have hpre : preprocessRecord true
      (.vObj [("name", .vStr "a"), ("publishedAt", .vStr "2020-01-01")]) =
      .vObj [("name", .vStr "a"), ("publishedAt", .vStr "2020-01-01")] := rfl
  have h3 : importOtherSlugLoop 1 envA userA "api::article.article" "name" true
      [.vObj [("name", .vStr "a"), ("publishedAt", .vStr "2020-01-01")]] stEmpty =
      ([{ success := true }],
        { tables := [("api::article.article",
            [.vObj [("name", .vStr "a"), ("publishedAt", .vStr "2020-01-01"),
              ("id", .vNum 1)]])],
          nextId := 2, uniques := [],
          writes := [("api::article.article",
            .vObj [("name", .vStr "a"), ("publishedAt", .vStr "2020-01-01")])] }) := by
    simp only [importOtherSlugLoop, hpre, h2]
  simp [importData, importOtherSlug, toArray, h3, mediaSlug,
    show getModel envA "api::article.article" = some articleModel from rfl, articleModel]

theorem updateOrCreate_eval_one (g : Nat) (env : Env) (user : User) (slug : String)
    (data : Value) (idField : String) (st : Store) (a : Attribute)
    (hattrs : getModelAttributes env slug relationTypeTags = [a]) :
    updateOrCreate (g+1) env user slug data idField st =
      match updateOrCreateRelation g env user a (objGet data a.name) st with
      | (.error e, st1) => (.error e, st1)
      | (.ok v, st1) =>
        match getModel env slug with
        | none => (.error "Cannot read properties of undefined (reading kind)", st1)
        | some m =>
          if m.kind == "singleType" then
            updateOrCreateSingleType slug (objSet data a.name v) idField st1
          else
            updateOrCreateCollectionType slug (objSet data a.name v) idField st1 := by
  rcases hr : updateOrCreateRelation g env user a (objGet data a.name) st with ⟨r, st1⟩
  cases r with
  | ok v => simp [updateOrCreate, hattrs, resolveAttributes, hr]
  | error e => simp [updateOrCreate, hattrs, resolveAttributes, hr]

/-- C4 (amended): for a model without draft/publish support and without
relation-classified attributes, every record the import passes to the store
(create and update alike) lacks the publish-state field entirely, whatever
the input format and the source record's contents: every write logged by the
call either predates it or has no publishedAt field. -/
theorem spec_C4 (fuel : Nat) (env : Env) (dataRaw : Value) (slug format : String)
    (user : User) (idField : String) (opt : Option Bool) (st : Store) (m : Model)
    (hm : getModel env slug = some m) (hdp : m.draftAndPublish = false)
    (hrel : getModelAttributes env slug relationTypeTags = [])
    (hmedia : (slug == mediaSlug) = false) :
    ∀ w ∈ (importData fuel env dataRaw slug format user idField opt st).2.writes,
      w ∈ st.writes ∨ objGet w.2 "publishedAt" = none := by
  intro w hw
  by_cases hjso : (format == "jso") = true
  · rcases hLoop : importOtherSlugLoop fuel env user slug idField false
        (toArray dataRaw) st with ⟨ps, st2⟩
    have hmain := importOtherSlugLoop_writes fuel env user slug idField false none
      hrel (toArray dataRaw) st
      (fun dd _ => Or.inl (preprocessRecord_false_pub dd))
    rw [hLoop] at hmain
    simp [importData, hm, hdp, hjso, hmedia, importOtherSlug, hLoop] at hw
    exact hmain w hw
  · have hjso' : (format == "jso") = false := by simpa using hjso
    rcases hP : parseInputData env format dataRaw slug (some false) with e | data0
    · simp [importData, hm, hdp, hjso', hP] at hw
      exact Or.inl hw
    · rcases hLoop : importOtherSlugLoop fuel env user slug idField false
          (toArray data0) st with ⟨ps, st2⟩
      have hmain := importOtherSlugLoop_writes fuel env user slug idField false none
        hrel (toArray data0) st
        (fun dd _ => Or.inl (preprocessRecord_false_pub dd))
      rw [hLoop] at hmain
      simp [importData, hm, hdp, hjso', hmedia, hP, importOtherSlug, hLoop] at hw
      exact hmain w hw

/-- Witness for C4: importing a record carrying a publish timestamp into the
tag model (no draft/publish) logs the record with the publish-state field
stripped, and that write satisfies the absent-publish-state property. -/
theorem spec_C4_witness :
    getModel envA "api::tag.tag" = some tagModel ∧
    tagModel.draftAndPublish = false ∧
    (("api::tag.tag", Value.vObj [("name", .vStr "a")]) ∈ stEmpty.writes ∨
      objGet (Value.vObj [("name", .vStr "a")]) "publishedAt" = none) := by
  refine ⟨rfl, rfl, ?_⟩
  have h2 : updateOrCreate 1 envA userA "api::tag.tag"
      (.vObj [("name", .vStr "a")]) "name" stEmpty =
      (.ok (.vObj [("name", .vStr "a"), ("id", .vNum 1)]),
        { tables := [("api::tag.tag",
            [.vObj [("name", .vStr "a"), ("id", .vNum 1)]])],
          nextId := 2, uniques := [],
          writes := [("api::tag.tag", .vObj [("name", .vStr "a")])] }) :=
    (updateOrCreate_eval 0 envA userA "api::tag.tag" _ "name" stEmpty
      tagModel rfl rfl rfl).trans rfl
  have hpre : preprocessRecord false
      (.vObj [("name", .vStr "a"), ("publishedAt", .vStr "2020-01-01")]) =
      .vObj [("name", .vStr "a")] := rfl
  have h3 : importOtherSlugLoop 1 envA userA "api::tag.tag" "name" false
      [.vObj [("name", .vStr "a"), ("publishedAt", .vStr "2020-01-01")]] stEmpty =
      ([{ success := true }],
        { tables := [("api::tag.tag",
            [.vObj [("name", .vStr "a"), ("id", .vNum 1)]])],
          nextId := 2, uniques := [],
          writes := [("api::tag.tag", .vObj [("name", .vStr "a")])] }) := by
    simp only [importOtherSlugLoop, hpre, h2]
  have hmem : ("api::tag.tag", Value.vObj [("name", .vStr "a")]) ∈
      (importData 1 envA
        (.vObj [("name", .vStr "a"), ("publishedAt", .vStr "2020-01-01")])
        "api::tag.tag" "jso" userA "name" (some false) stEmpty).2.writes := by
    simp [importData, importOtherSlug, toArray, h3, mediaSlug,
      show getModel envA "api::tag.tag" = some tagModel from rfl, tagModel]
  exact spec_C4 1 envA
    (.vObj [("name", .vStr "a"), ("publishedAt", .vStr "2020-01-01")])
    "api::tag.tag" "jso" userA "name" (some false) stEmpty tagModel
    rfl rfl rfl rfl _ hmem

/-- Counterexample for C4: a publish timestamp reaches the store for a model
without draft/publish support when the record arrives as a nested relation
value — the per-record stripping covers only the top-level record, not the
related records the relation resolver creates. -/
theorem spec_C4_cex :
    tagModel.draftAndPublish = false ∧
    ("api::tag.tag",
      Value.vObj [("name", .vStr "t"), ("publishedAt", .vStr "2020-01-01")]) ∈
      (importData 3 envA
        (.vObj [("name", .vStr "p"),
          ("tag", .vObj [("name", .vStr "t"), ("publishedAt", .vStr "2020-01-01")])])
        "api::post.post" "jso" userA "name" (some true) stEmpty).2.writes ∧
    objGet (Value.vObj [("name", .vStr "t"), ("publishedAt", .vStr "2020-01-01")])
      "publishedAt" = some (.vStr "2020-01-01") := by
  have e1 : updateOrCreate 1 envA userA "api::tag.tag"
      (.vObj [("name", .vStr "t"), ("publishedAt", .vStr "2020-01-01")]) "id" stEmpty =
      (.ok (.vObj [("name", .vStr "t"), ("publishedAt", .vStr "2020-01-01"),
          ("id", .vNum 1)]),
        { tables := [("api::tag.tag",
            [.vObj [("name", .vStr "t"), ("publishedAt", .vStr "2020-01-01"),
              ("id", .vNum 1)]])],
          nextId := 2, uniques := [],
          writes := [("api::tag.tag",
            .vObj [("name", .vStr "t"), ("publishedAt", .vStr "2020-01-01")])] }) :=
    (updateOrCreate_eval 0 envA userA "api::tag.tag" _ "id" stEmpty
      tagModel rfl rfl rfl).trans rfl
  have e2 : relationEntryIds 1 envA userA relTag.target
      (toArray (.vObj [("name", .vStr "t"), ("publishedAt", .vStr "2020-01-01")]))
      stEmpty =
      (.ok [.vNum 1],
        { tables := [("api::tag.tag",
            [.vObj [("name", .vStr "t"), ("publishedAt", .vStr "2020-01-01"),
              ("id", .vNum 1)]])],
          nextId := 2, uniques := [],
          writes := [("api::tag.tag",
            .vObj [("name", .vStr "t"), ("publishedAt", .vStr "2020-01-01")])] }) := by
    show relationEntryIds 1 envA userA "api::tag.tag"
      [.vObj [("name", .vStr "t"), ("publishedAt", .vStr "2020-01-01")]] stEmpty = _
    simp only [relationEntryIds, e1]
    rfl
  have e3 : updateOrCreateRelation 2 envA userA relTag
      (objGet (.vObj [("name", .vStr "p"),
        ("tag", .vObj [("name", .vStr "t"), ("publishedAt", .vStr "2020-01-01")])])
        relTag.name) stEmpty =
      (.ok (.vNum 1),
        { tables := [("api::tag.tag",
            [.vObj [("name", .vStr "t"), ("publishedAt", .vStr "2020-01-01"),
              ("id", .vNum 1)]])],
          nextId := 2, uniques := [],
          writes := [("api::tag.tag",
            .vObj [("name", .vStr "t"), ("publishedAt", .vStr "2020-01-01")])] }) := by
    show updateOrCreateRelation 2 envA userA relTag
      (some (.vObj [("name", .vStr "t"), ("publishedAt", .vStr "2020-01-01")]))
      stEmpty = _
    refine (uocRel_relation_eq 1 envA userA relTag
      (.vObj [("name", .vStr "t"), ("publishedAt", .vStr "2020-01-01")]) stEmpty
      (fun h => Value.noConfusion h) rfl rfl).trans ?_
    rw [e2]
    rfl
  have e4 : updateOrCreate 3 envA userA "api::post.post"
      (.vObj [("name", .vStr "p"),
        ("tag", .vObj [("name", .vStr "t"), ("publishedAt", .vStr "2020-01-01")])])
      "name" stEmpty =
      (.ok (.vObj [("name", .vStr "p"), ("tag", .vNum 1), ("id", .vNum 2)]),
        { tables := [("api::tag.tag",
            [.vObj [("name", .vStr "t"), ("publishedAt", .vStr "2020-01-01"),
              ("id", .vNum 1)]]),
            ("api::post.post",
              [.vObj [("name", .vStr "p"), ("tag", .vNum 1), ("id", .vNum 2)]])],
          nextId := 3, uniques := [],
          writes := [("api::post.post", .vObj [("name", .vStr "p"), ("tag", .vNum 1)]),
            ("api::tag.tag",
              .vObj [("name", .vStr "t"), ("publishedAt", .vStr "2020-01-01")])] }) := by
    refine (updateOrCreate_eval_one 2 envA userA "api::post.post" _ "name" stEmpty
      relTag rfl).trans ?_
    rw [e3]
    rfl
  have e5pre : preprocessRecord false
      (.vObj [("name", .vStr "p"),
        ("tag", .vObj [("name", .vStr "t"), ("publishedAt", .vStr "2020-01-01")])]) =
      .vObj [("name", .vStr "p"),
        ("tag", .vObj [("name", .vStr "t"), ("publishedAt", .vStr "2020-01-01")])] := rfl
  have e5 : importOtherSlugLoop 3 envA userA "api::post.post" "name" false
      [.vObj [("name", .vStr "p"),
        ("tag", .vObj [("name", .vStr "t"), ("publishedAt", .vStr "2020-01-01")])]]
      stEmpty =
      ([{ success := true }],
        { tables := [("api::tag.tag",
            [.vObj [("name", .vStr "t"), ("publishedAt", .vStr "2020-01-01"),
              ("id", .vNum 1)]]),
            ("api::post.post",
              [.vObj [("name", .vStr "p"), ("tag", .vNum 1), ("id", .vNum 2)]])],
          nextId := 3, uniques := [],
          writes := [("api::post.post", .vObj [("name", .vStr "p"), ("tag", .vNum 1)]),
            ("api::tag.tag",
              .vObj [("name", .vStr "t"), ("publishedAt", .vStr "2020-01-01")])] }) := by
    simp only [importOtherSlugLoop, e5pre, e4]
  refine ⟨rfl, ?_, rfl⟩
  have hW : (importData 3 envA
      (.vObj [("name", .vStr "p"),
        ("tag", .vObj [("name", .vStr "t"), ("publishedAt", .vStr "2020-01-01")])])
      "api::post.post" "jso" userA "name" (some true) stEmpty).2.writes =
      [("api::post.post", .vObj [("name", .vStr "p"), ("tag", .vNum 1)]),
        ("api::tag.tag",
          .vObj [("name", .vStr "t"), ("publishedAt", .vStr "2020-01-01")])] := by
    simp [importData, importOtherSlug, toArray, e5, mediaSlug,
      show getModel envA "api::post.post" = some postModel from rfl, postModel]
  rw [hW]
  exact List.mem_cons_of_mem _ (List.mem_cons_self _ _)

/-- C9 (amended): omitting the importAsDrafts option is identical to passing
importAsDrafts = true, both for the import orchestrator and for the parser
dispatch — the option defaults to true; whether the resulting records are
unpublished then depends on the format, as the pre-decoded jso format
bypasses the parsers. -/
theorem spec_C9 (fuel : Nat) (env : Env) (dataRaw : Value) (slug format : String)
    (user : User) (idField : String) (st : Store) :
    importData fuel env dataRaw slug format user idField none st =
      importData fuel env dataRaw slug format user idField (some true) st ∧
    parseInputData env format dataRaw slug none =
      parseInputData env format dataRaw slug (some true) :=
  ⟨rfl, rfl⟩

/-- Counterexample for C9: with the option omitted (defaulting to true), a
jso import of a published record into a draft/publish model still logs a
write that keeps the source publish timestamp, so the default does not make
every import produce only unpublished records. -/
theorem spec_C9_cex :
    articleModel.draftAndPublish = true ∧
    (importData 1 envA (.vObj [("name", .vStr "b"), ("publishedAt", .vStr "2021-05-05")])
        "api::article.article" "jso" userA "name" none stEmpty).2.writes =
      [("api::article.article",
        .vObj [("name", .vStr "b"), ("publishedAt", .vStr "2021-05-05")])] := by
  refine ⟨rfl, ?_⟩
  have h2 : updateOrCreate 1 envA userA "api::article.article"
      (.vObj [("name", .vStr "b"), ("publishedAt", .vStr "2021-05-05")]) "name" stEmpty =
      (.ok (.vObj [("name", .vStr "b"), ("publishedAt", .vStr "2021-05-05"),
          ("id", .vNum 1)]),
        { tables := [("api::article.article",
            [.vObj [("name", .vStr "b"), ("publishedAt", .vStr "2021-05-05"),
              ("id", .vNum 1)]])],
          nextId := 2, uniques := [],
          writes := [("api::article.article",
            .vObj [("name", .vStr "b"), ("publishedAt", .vStr "2021-05-05")])] }) :=
    (updateOrCreate_eval 0 envA userA "api::article.article" _ "name" stEmpty
      articleModel rfl rfl rfl).trans rfl
  have hpre : preprocessRecord true
      (.vObj [("name", .vStr "b"), ("publishedAt", .vStr "2021-05-05")]) =
      .vObj [("name", .vStr "b"), ("publishedAt", .vStr "2021-05-05")] := rfl
  have h3 : importOtherSlugLoop 1 envA userA "api::article.article" "name" true
      [.vObj [("name", .vStr "b"), ("publishedAt", .vStr "2021-05-05")]] stEmpty =
      ([{ success := true }],
        { tables := [("api::article.article",
            [.vObj [("name", .vStr "b"), ("publishedAt", .vStr "2021-05-05"),
              ("id", .vNum 1)]])],
          nextId := 2, uniques := [],
          writes := [("api::article.article",
            .vObj [("name", .vStr "b"), ("publishedAt", .vStr "2021-05-05")])] }) := by
    simp only [importOtherSlugLoop, hpre, h2]
  simp [importData, importOtherSlug, toArray, h3, mediaSlug,
    show getModel envA "api::article.article" = some articleModel from rfl, articleModel]
